import Mathlib

/-!
# aiproxy: request-body cache, bounded reader, OpenAI request conversion, Azure key parsing

A shallow embedding of

* `core/common/gin.go` (`LimitedReader`, `SetRequestBody`, `GetRequestBody`),
* `core/relay/adaptor/openai/adaptor.go` (`GetRequestURL`, `SetupRequestHeader`,
  `ConvertRequest`, `DoResponse`, `ConvertTextRequest`, `patchStreamOptions`),
* `core/relay/adaptor/doc2x/adaptor.go` (`GetRequestURL`, `ConvertRequest`, `DoResponse`,
  `SetupRequestHeader`),
* `core/relay/adaptor/azure/key.go` (`getTokenAndAPIVersion`, `ValidateKey`),

followed by the properties proved about them.

Conventions. A Go `io.Reader` is a state of some type `σ` together with a
function `σ → Nat → ReadResult σ`: the second argument is `len(p)` of the buffer
handed to `Read`, the result holds the bytes stored into `p[0:n]`, the error and
the reader afterwards; the count `n` is the length of that list, so it is never
negative (the `io.Reader` contract), while a reader that reports more than `len(p)`
is expressible.  `int64` budgets are `Int`; the only arithmetic on them is `N - n`
with `0 < N` and `0 ≤ n`, which cannot leave the `int64` range.  Loops that Go runs
until the reader signals an error carry a fuel argument and return `none` when it
runs out (or when the Go code would panic on a slice bound).  The growth of a slice
under `append`, the JSON library, and the converters and handlers that the adaptors
call in other files of their packages are parameters.  Pointers are taken non-nil
unless the code tests them.
-/

namespace AIProxy

/-! ## Go runtime pieces used by the sources -/

/-- One octet of a body. -/
abbrev Byte := Fin 256

/-- The error values that occur: the sentinels of package `io`, the sentinel
`ErrLimitedReaderExceeded` of `core/common/gin.go`, and any other error. -/
inductive GoError where
  | EOF
  | ErrUnexpectedEOF
  | ErrShortBuffer
  | ErrLimitedReaderExceeded
  | other (msg : String)
  deriving DecidableEq, Repr

/-- What one `Read(p)` call yields: the bytes stored in `p[0:n]` (so `n` is
`data.length`), the error, and the reader after the call. -/
structure ReadResult (σ : Type) where
  data : List Byte
  err : Option GoError
  next : σ

/-- An `io.ReadCloser` over states `σ`. The `Nat` given to `Read` is `len(p)`. -/
structure ReadCloser (σ : Type) where
  Read : σ → Nat → ReadResult σ
  Close : σ → σ

/-- `strings.HasPrefix`. -/
def hasPrefix (s pre : String) : Bool :=
  pre.data.isPrefixOf s.data

/-! ## core/common/gin.go -/

/-- `MaxRequestBodySize = 1024 * 1024 * 50`. -/
def MaxRequestBodySize : Nat := 1024 * 1024 * 50

/-- `type LimitedReader struct { R io.Reader; N int64 }`. -/
structure LimitedReader (σ : Type) where
  R : σ
  N : Int

/-- `LimitReader(r, n)` is `&LimitedReader{r, n}`. -/
def LimitReader {σ : Type} (r : σ) (n : Int) : LimitedReader σ :=
  { R := r, N := n }

/-- `(*LimitedReader).Read`: `rd` is the `Read` of the wrapped reader, `p` is `len(p)`. -/
def LimitedReader.Read {σ : Type} (rd : σ → Nat → ReadResult σ) (l : LimitedReader σ) (p : Nat) :
    ReadResult (LimitedReader σ) :=
  if l.N ≤ 0 then
    { data := [], err := some GoError.ErrLimitedReaderExceeded, next := l }
  else
    let p := if (p : Int) > l.N then l.N.toNat else p
    let r := rd l.R p
    { data := r.data, err := r.err, next := { R := r.next, N := l.N - (r.data.length : Int) } }

/-- A finite sequence of `Read` calls on one `LimitedReader`, with buffer lengths
`sizes`: the results in call order (each carries the reader after its call). -/
def readSeq {σ : Type} (rd : σ → Nat → ReadResult σ) :
    LimitedReader σ → List Nat → List (ReadResult (LimitedReader σ))
  | _, [] => []
  | l, p :: ps =>
    let r := LimitedReader.Read rd l p
    r :: readSeq rd r.next ps

/-- The `LimitedReader` left by `readSeq`. -/
def afterReads {σ : Type} (rd : σ → Nat → ReadResult σ) :
    LimitedReader σ → List Nat → LimitedReader σ
  | l, [] => l
  | l, p :: ps => afterReads rd (LimitedReader.Read rd l p).next ps

/-- A reader instrumented with a call counter: every `Read` of the wrapped reader
adds one to the second component. -/
def counted {σ : Type} (rd : σ → Nat → ReadResult σ) : σ × Nat → Nat → ReadResult (σ × Nat) :=
  fun s k =>
    let r := rd s.1 k
    { data := r.data, err := r.err, next := (r.next, s.2 + 1) }

/-- `bytes.Reader.Read` (also the body of `http.NewRequest` over a byte slice):
the state is the unread rest; at the end it answers `0, io.EOF`, otherwise it
copies `min(len(p), rest)` bytes and answers a nil error. -/
def bytesReaderRead (rest : List Byte) (p : Nat) : ReadResult (List Byte) :=
  match rest with
  | [] => { data := [], err := some GoError.EOF, next := [] }
  | _ :: _ => { data := rest.take p, err := none, next := rest.drop p }

/-- A `bytes.Reader` behind `io.NopCloser`. -/
def bytesReader : ReadCloser (List Byte) :=
  { Read := bytesReaderRead, Close := fun s => s }

/-- `bytes.Buffer.Read`: an empty buffer answers `0, nil` to an empty `p` and
`0, io.EOF` otherwise; a non-empty one copies and answers a nil error. -/
def bufferRead (rest : List Byte) (p : Nat) : ReadResult (List Byte) :=
  match rest with
  | [] => { data := [], err := if p = 0 then none else some GoError.EOF, next := [] }
  | _ :: _ => { data := rest.take p, err := none, next := rest.drop p }

/-- The loop of `io.ReadAll`. `b` is the slice read so far, `cap` its capacity.
`n, err := r.Read(b[len(b):cap(b)])`, `b = b[:len(b)+n]` (a panic when that
exceeds the capacity), return on an error (`io.EOF` becomes nil), and when the
slice is full `append(b, 0)[:len(b)]` moves to a larger capacity: at least one
more, and `extra cap` beyond that (the allocator's choice). -/
def ReadAllLoop {σ : Type} (extra : Nat → Nat) (rd : σ → Nat → ReadResult σ) :
    Nat → σ → List Byte → Nat → Option (List Byte × Option GoError × σ)
  | 0, _, _, _ => none
  | fuel + 1, s, b, cap =>
    let r := rd s (cap - b.length)
    if cap < b.length + r.data.length then none
    else
      let b := b ++ r.data
      match r.err with
      | some e => some (b, if e = GoError.EOF then none else some e, r.next)
      | none =>
        let cap := if b.length = cap then cap + 1 + extra cap else cap
        ReadAllLoop extra rd fuel r.next b cap

/-- `io.ReadAll(r)`: starts from `make([]byte, 0, 512)`. -/
def ReadAll {σ : Type} (extra : Nat → Nat) (rd : σ → Nat → ReadResult σ) (fuel : Nat) (s : σ) :
    Option (List Byte × Option GoError × σ) :=
  ReadAllLoop extra rd fuel s [] 512

/-- The loop `for n < min && err == nil { nn, err = r.Read(buf[n:]); n += nn }` of
`io.ReadAtLeast`; `got` is what has been stored so far (`n = got.length`), `len`
is `len(buf)`. -/
def ReadAtLeastLoop {σ : Type} (rd : σ → Nat → ReadResult σ) (len min : Nat) :
    Nat → σ → List Byte → Option GoError → Option (List Byte × Option GoError × σ)
  | 0, s, got, err =>
    if got.length < min ∧ err = none then none else some (got, err, s)
  | fuel + 1, s, got, err =>
    if got.length < min ∧ err = none then
      let r := rd s (len - got.length)
      ReadAtLeastLoop rd len min fuel r.next (got ++ r.data) r.err
    else some (got, err, s)

/-- `io.ReadAtLeast(r, buf, min)` on a zeroed `buf` of length `len`: the count `n`,
the content of `buf` afterwards, the error and the reader. -/
def ReadAtLeast {σ : Type} (rd : σ → Nat → ReadResult σ) (fuel : Nat) (s : σ) (len min : Nat) :
    Option (Nat × List Byte × Option GoError × σ) :=
  if len < min then some (0, List.replicate len 0, some GoError.ErrShortBuffer, s)
  else
    match ReadAtLeastLoop rd len min fuel s [] none with
    | none => none
    | some (got, err, s) =>
      let n := got.length
      let buf := (got ++ List.replicate (len - n) 0).take len
      let err :=
        if n ≥ min then none
        else if n > 0 ∧ err = some GoError.EOF then some GoError.ErrUnexpectedEOF
        else err
      some (n, buf, err, s)

/-- `io.ReadFull(r, buf)` is `ReadAtLeast(r, buf, len(buf))`. -/
def ReadFull {σ : Type} (rd : σ → Nat → ReadResult σ) (fuel : Nat) (s : σ) (len : Nat) :
    Option (Nat × List Byte × Option GoError × σ) :=
  ReadAtLeast rd fuel s len len

/-- What `req.Body` can be: the stream the request arrived with, or the
`io.NopCloser(bytes.NewBuffer(buf))` that `GetRequestBody` installs. -/
inductive BodyReader (σ : Type) where
  | stream (s : σ)
  | buffer (rest : List Byte)

/-- `req.Body.Read`. -/
def BodyReader.Read {σ : Type} (rc : ReadCloser σ) : BodyReader σ → Nat → ReadResult (BodyReader σ)
  | BodyReader.stream s, p =>
    let r := rc.Read s p
    { data := r.data, err := r.err, next := BodyReader.stream r.next }
  | BodyReader.buffer rest, p =>
    let r := bufferRead rest p
    { data := r.data, err := r.err, next := BodyReader.buffer r.next }

/-- `req.Body.Close()`; closing a `NopCloser` does nothing. -/
def BodyReader.Close {σ : Type} (rc : ReadCloser σ) : BodyReader σ → BodyReader σ
  | BodyReader.stream s => BodyReader.stream (rc.Close s)
  | BodyReader.buffer rest => BodyReader.buffer rest

/-- The parts of `*http.Request` that `core/common/gin.go` touches. `ctxBody` is
`req.Context().Value(RequestBodyKey{})`: `none` for a nil interface, `some b` once
`SetRequestBody` stored the slice `b` (a stored nil slice is still a non-nil
interface value, so it is `some []`). -/
structure Request (σ : Type) where
  ContentType : String
  ContentLength : Int
  ctxBody : Option (List Byte)
  Body : BodyReader σ

/-- The three errors `GetRequestBody` builds with `fmt.Errorf`. -/
inductive BodyError where
  | tooLarge
  | declaredTooLarge (contentLength : Int)
  | readFailed (cause : GoError)
  deriving DecidableEq, Repr

/-- The text of a `GoError`. -/
def GoError.Error : GoError → String
  | GoError.EOF => "EOF"
  | GoError.ErrUnexpectedEOF => "unexpected EOF"
  | GoError.ErrShortBuffer => "short buffer"
  | GoError.ErrLimitedReaderExceeded => "limited reader exceeded"
  | GoError.other msg => msg

/-- The text of a `BodyError`, as formatted in the source. -/
def BodyError.Error : BodyError → String
  | BodyError.tooLarge =>
    "request body too large, max: " ++ toString MaxRequestBodySize
  | BodyError.declaredTooLarge contentLength =>
    "request body too large: " ++ toString contentLength ++ ", max: " ++ toString MaxRequestBodySize
  | BodyError.readFailed cause =>
    "request body read failed: " ++ cause.Error

/-- `SetRequestBody(req, body)`: the request with `body` stored in its context. -/
def SetRequestBody {σ : Type} (req : Request σ) (body : List Byte) : Request σ :=
  { req with ctxBody := some body }

/-- `GetRequestBody(req)`: the returned `([]byte, error)` and the request afterwards;
`none` when a read loop does not return within `fuel` rounds.

The deferred function closes `req.Body` and, when the local `err` is nil, installs
a buffer over `buf`. The declared-length rejection returns without assigning `err`
or `buf`, so it installs a buffer over the nil slice. -/
def GetRequestBody {σ : Type} (extra : Nat → Nat) (rc : ReadCloser σ) (fuel : Nat)
    (req : Request σ) : Option (Except BodyError (List Byte) × Request σ) :=
  let contentType := req.ContentType
  if contentType = "application/x-www-form-urlencoded" ∨
      hasPrefix contentType "multipart/form-data" then
    some (Except.ok [], req)
  else
    match req.ctxBody with
    | some b => some (Except.ok b, req)
    | none =>
      if req.ContentLength ≤ 0 ∨ hasPrefix contentType "application/json" then
        match ReadAll extra (LimitedReader.Read (BodyReader.Read rc)) fuel
            (LimitReader req.Body (MaxRequestBodySize : Int)) with
        | none => none
        | some (_, some err, l) =>
          let req := { req with Body := BodyReader.Close rc l.R }
          if err = GoError.ErrLimitedReaderExceeded then
            some (Except.error BodyError.tooLarge, req)
          else
            some (Except.error (BodyError.readFailed err), req)
        | some (buf, none, _) =>
          let req := SetRequestBody req buf
          some (Except.ok buf, { req with Body := BodyReader.buffer buf })
      else
        if req.ContentLength > (MaxRequestBodySize : Int) then
          some (Except.error (BodyError.declaredTooLarge req.ContentLength),
            { req with Body := BodyReader.buffer [] })
        else
          match ReadFull (BodyReader.Read rc) fuel req.Body req.ContentLength.toNat with
          | none => none
          | some (_, _, some err, body) =>
            some (Except.error (BodyError.readFailed err),
              { req with Body := BodyReader.Close rc body })
          | some (_, buf, none, _) =>
            let req := SetRequestBody req buf
            some (Except.ok buf, { req with Body := BodyReader.buffer buf })

/-- `UnmarshalBodyReusable` and the conversions below go through the JSON library
`github.com/bytedance/sonic`, which is outside the repository. -/
inductive JSON where
  | null
  | bool (b : Bool)
  | number (n : Int)
  | string (s : String)
  | array (xs : List JSON)
  | object (kvs : List (String × JSON))

/-- A `map[string]any` as its entries; a key is looked up at its first entry. The
number carrier stands for `float64`; no code here inspects a number. -/
abbrev ReqMap := List (String × JSON)

/-- `m[k]` with the comma-ok flag: `none` when the key is absent. -/
def mapGet : ReqMap → String → Option JSON
  | [], _ => none
  | (k', v) :: rest, k => if k' = k then some v else mapGet rest k

/-- `m[k] = v`: overwrite the entry of `k`, or add one. -/
def mapSet : ReqMap → String → JSON → ReqMap
  | [], k, v => [(k, v)]
  | (k', v') :: rest, k, v =>
    if k' = k then (k, v) :: rest else (k', v') :: mapSet rest k v

/-- The two entry points of sonic that the sources call: `Unmarshal` into a pointer
to an empty `map[string]any`, and `Marshal` of such a map. -/
structure Sonic where
  Unmarshal : List Byte → Except String ReqMap
  Marshal : ReqMap → Except String (List Byte)

/-! ## core/relay/mode, core/relay/meta, core/relay/adaptor (declarations) -/

/-- `mode.Mode`: the modes named in the sources, and every other value of the
enumeration. -/
inductive Mode where
  | ChatCompletions
  | Completions
  | Embeddings
  | Moderations
  | ImagesGenerations
  | ImagesEdits
  | AudioSpeech
  | AudioTranscription
  | AudioTranslation
  | Rerank
  | ParsePdf
  | other (code : Nat)
  deriving DecidableEq, Repr

/-- The fields of the channel that the adaptors read. -/
structure Channel where
  BaseURL : String
  Key : String

/-- `meta.Meta`, the fields read here. -/
structure Meta where
  Mode : Mode
  Channel : Channel
  ActualModel : String
  OriginModel : String

/-- `adaptor.ConvertRequestResult`; `Body` is the content of the `bytes.Reader`. -/
structure ConvertRequestResult where
  Method : String
  Header : Option (List (String × String))
  Body : List Byte

/-- The errors a conversion returns. -/
inductive ConvertError where
  | body (e : BodyError)
  | sonic (msg : String)
  | message (msg : String)
  | unsupportedMode (m : Mode)

/-! ## core/common/gin.go, continued -/

/-- `UnmarshalBodyReusable(req, &reqMap)` for a pointer to an empty map. -/
def UnmarshalBodyReusable {σ : Type} (extra : Nat → Nat) (rc : ReadCloser σ) (sonic : Sonic)
    (fuel : Nat) (req : Request σ) : Option (Except ConvertError ReqMap × Request σ) :=
  match GetRequestBody extra rc fuel req with
  | none => none
  | some (Except.error err, req) => some (Except.error (ConvertError.body err), req)
  | some (Except.ok requestBody, req) =>
    match sonic.Unmarshal requestBody with
    | Except.error msg => some (Except.error (ConvertError.sonic msg), req)
    | Except.ok reqMap => some (Except.ok reqMap, req)

/-! ## core/relay/adaptor/openai/adaptor.go -/

/-- `patchStreamOptions(reqMap)`: the map afterwards and the returned error
(`none` for nil). -/
def patchStreamOptions (reqMap : ReqMap) : ReqMap × Option String :=
  match mapGet reqMap "stream" with
  | none => (reqMap, none)
  | some (JSON.bool streamBool) =>
    if !streamBool then (reqMap, none)
    else
      match mapGet reqMap "stream_options" with
      | some (JSON.object streamOptions) =>
        (mapSet reqMap "stream_options"
          (JSON.object (mapSet streamOptions "include_usage" (JSON.bool true))), none)
      | none =>
        (mapSet reqMap "stream_options" (JSON.object [("include_usage", JSON.bool true)]), none)
      | some JSON.null =>
        (mapSet reqMap "stream_options" (JSON.object [("include_usage", JSON.bool true)]), none)
      | some _ => (reqMap, some "stream_options is not a map")
  | some _ => (reqMap, some "stream is not a boolean")

/-- `ConvertTextRequest(meta, req, doNotPatchStreamOptionsIncludeUsage)`. -/
def ConvertTextRequest {σ : Type} (extra : Nat → Nat) (rc : ReadCloser σ) (sonic : Sonic)
    (fuel : Nat) (m : Meta) (req : Request σ) (doNotPatchStreamOptionsIncludeUsage : Bool) :
    Option (Except ConvertError ConvertRequestResult × Request σ) :=
  match UnmarshalBodyReusable extra rc sonic fuel req with
  | none => none
  | some (Except.error err, req) => some (Except.error err, req)
  | some (Except.ok reqMap, req) =>
    let patched :=
      if !doNotPatchStreamOptionsIncludeUsage then patchStreamOptions reqMap else (reqMap, none)
    match patched with
    | (_, some err) => some (Except.error (ConvertError.message err), req)
    | (reqMap, none) =>
      let reqMap := mapSet reqMap "model" (JSON.string m.ActualModel)
      match sonic.Marshal reqMap with
      | Except.error msg => some (Except.error (ConvertError.sonic msg), req)
      | Except.ok jsonData =>
        some (Except.ok { Method := "POST", Header := none, Body := jsonData }, req)

/-- The converters of package `openai` defined in files other than `adaptor.go`. -/
structure Converters (σ : Type) where
  ConvertEmbeddingsRequest :
    Meta → Request σ → Bool → Option (Except ConvertError ConvertRequestResult × Request σ)
  ConvertImagesRequest :
    Meta → Request σ → Option (Except ConvertError ConvertRequestResult × Request σ)
  ConvertImagesEditsRequest :
    Meta → Request σ → Option (Except ConvertError ConvertRequestResult × Request σ)
  ConvertSTTRequest :
    Meta → Request σ → Option (Except ConvertError ConvertRequestResult × Request σ)
  ConvertTTSRequest :
    Meta → Request σ → String → Option (Except ConvertError ConvertRequestResult × Request σ)
  ConvertRerankRequest :
    Meta → Request σ → Option (Except ConvertError ConvertRequestResult × Request σ)

/-- `ConvertRequest(meta, req)`; a nil `req` is `none`, and then no request comes
back. -/
def ConvertRequest {σ : Type} (extra : Nat → Nat) (rc : ReadCloser σ) (sonic : Sonic)
    (cv : Converters σ) (fuel : Nat) (m : Meta) (req : Option (Request σ)) :
    Option (Except ConvertError ConvertRequestResult × Option (Request σ)) :=
  match req with
  | none => some (Except.error (ConvertError.message "request is nil"), none)
  | some req =>
    let out :=
      match m.Mode with
      | Mode.Moderations => cv.ConvertEmbeddingsRequest m req true
      | Mode.Embeddings => cv.ConvertEmbeddingsRequest m req false
      | Mode.Completions => cv.ConvertEmbeddingsRequest m req false
      | Mode.ChatCompletions => ConvertTextRequest extra rc sonic fuel m req false
      | Mode.ImagesGenerations => cv.ConvertImagesRequest m req
      | Mode.ImagesEdits => cv.ConvertImagesEditsRequest m req
      | Mode.AudioTranscription => cv.ConvertSTTRequest m req
      | Mode.AudioTranslation => cv.ConvertSTTRequest m req
      | Mode.AudioSpeech => cv.ConvertTTSRequest m req ""
      | Mode.Rerank => cv.ConvertRerankRequest m req
      | mode => some (Except.error (ConvertError.unsupportedMode mode), req)
    out.map (fun r => (r.1, some r.2))

/-! ## core/relay/adaptor/azure/key.go -/

/-- `defaultAPIVersion`. -/
def defaultAPIVersion : String := "2024-12-01-preview"

/-- `strings.Split` on characters with a one-character separator: the pieces
between the occurrences of `sep`, one more piece than occurrences. -/
def splitChars (sep : Char) : List Char → List (List Char)
  | [] => [[]]
  | c :: cs =>
    if c = sep then [] :: splitChars sep cs
    else
      match splitChars sep cs with
      | [] => [[c]]
      | piece :: pieces => (c :: piece) :: pieces

/-- `strings.Split(s, "|")`. -/
def splitBar (s : String) : List String :=
  (splitChars '|' s.data).map String.mk

/-- `getTokenAndAPIVersion(key)`. -/
def getTokenAndAPIVersion (key : String) : Except String (String × String) :=
  let split := splitBar key
  if split.length = 1 then Except.ok (key, defaultAPIVersion)
  else if split.length ≠ 2 then Except.error "invalid key format"
  else Except.ok (split.getD 0 "", split.getD 1 "")

/-- `(*Adaptor).ValidateKey(key)`: the returned error, `none` for nil. -/
def ValidateKey (key : String) : Option String :=
  match getTokenAndAPIVersion key with
  | Except.error err => some err
  | Except.ok _ => none

/-! ## core/common/gin.go: an instrumented reader -/

/-- A reader instrumented with a log: every `Read` of the wrapped reader appends
the length of the buffer it was handed to the second component. -/
def recorded {σ : Type} (rd : σ → Nat → ReadResult σ) :
    σ × List Nat → Nat → ReadResult (σ × List Nat) :=
  fun s k =>
    let r := rd s.1 k
    { data := r.data, err := r.err, next := (r.next, s.2 ++ [k]) }

/-! ## Pieces of `net/http` and of the relay packages that the adaptors call -/

/-- `http.StatusBadRequest`. -/
def StatusBadRequest : Nat := 400

/-- The Error Envelope of the data model (`adaptor.Error` in the sources). -/
structure ErrorEnvelope where
  Message : String
  Code : String
  HTTPStatus : Nat
  deriving DecidableEq, Repr

/-- Modelled from the spec: `relaymodel.WrapperOpenAIErrorWithMessage(message, code,
statusCode)` is defined outside the files at hand. The spec gives the Error
Envelope as {Message, Code/Type, HTTPStatus}; the call yields the envelope of its
three arguments. -/
def WrapperOpenAIErrorWithMessage (message code : String) (statusCode : Nat) : ErrorEnvelope :=
  { Message := message, Code := code, HTTPStatus := statusCode }

/-- `fmt.Sprintf("unsupported mode: %s", meta.Mode)`. `modeString` is the text that
`%s` gives a `mode.Mode`; package `mode` is outside the files at hand. -/
def unsupportedModeText (modeString : Mode → String) (m : Mode) : String :=
  "unsupported mode: " ++ modeString m

/-- An `http.Header` as its entries (key, values); a key is looked up at its first
entry. -/
abbrev Header := List (String × List String)

/-- `h[key]` with the comma-ok flag. -/
def headerValues : Header → String → Option (List String)
  | [], _ => none
  | (k, vs) :: rest, key => if k = key then some vs else headerValues rest key

/-- `h.Get(key)` for a canonical `key`: the first value, or `""`. -/
def headerGet (h : Header) (key : String) : String :=
  match headerValues h key with
  | some (v :: _) => v
  | _ => ""

/-- `h.Set(key, value)` for a canonical `key` (`"Authorization"` is one):
`h[key] = []string{value}`. -/
def headerSet : Header → String → String → Header
  | [], key, value => [(key, [value])]
  | (k, vs) :: rest, key, value =>
    if k = key then (key, [value]) :: rest else (k, vs) :: headerSet rest key value

/-- The outbound `*http.Request`: the parts an adaptor can reach. `β` is what the
body reader holds. -/
structure OutboundRequest (β : Type) where
  Method : String
  URL : String
  Header : Header
  Body : β

/-! ## core/relay/adaptor/openai/adaptor.go, continued -/

/-- `(*Adaptor).GetRequestURL(meta)`: the returned string and error. -/
def GetRequestURL (m : Meta) : String × Option ConvertError :=
  let u := m.Channel.BaseURL
  let path : Option String :=
    match m.Mode with
    | Mode.ChatCompletions => some "/chat/completions"
    | Mode.Completions => some "/completions"
    | Mode.Embeddings => some "/embeddings"
    | Mode.Moderations => some "/moderations"
    | Mode.ImagesGenerations => some "/images/generations"
    | Mode.ImagesEdits => some "/images/edits"
    | Mode.AudioSpeech => some "/audio/speech"
    | Mode.AudioTranscription => some "/audio/transcriptions"
    | Mode.AudioTranslation => some "/audio/translations"
    | Mode.Rerank => some "/rerank"
    | _ => none
  match path with
  | some path => (u ++ path, none)
  | none => ("", some (ConvertError.unsupportedMode m.Mode))

/-- `(*Adaptor).SetupRequestHeader(meta, _, req)`: the request afterwards and the
returned error (`none` for nil). -/
def SetupRequestHeader {β : Type} (m : Meta) (req : OutboundRequest β) :
    OutboundRequest β × Option String :=
  ({ req with Header := headerSet req.Header "Authorization" ("Bearer " ++ m.Channel.Key) }, none)

/-- The response handlers of package `openai` defined in files other than
`adaptor.go`, and `utils.IsStreamResponse`. `ρ` is the state they work on (the gin
context and the `*http.Response`), `υ` is `model.Usage`; a handler returns the usage
pointer, the error and the state afterwards. -/
structure Handlers (υ ρ : Type) where
  IsStreamResponse : ρ → Bool
  ImagesHandler : Meta → ρ → Option υ × Option ErrorEnvelope × ρ
  STTHandler : Meta → ρ → Option υ × Option ErrorEnvelope × ρ
  TTSHandler : Meta → ρ → Option υ × Option ErrorEnvelope × ρ
  RerankHandler : Meta → ρ → Option υ × Option ErrorEnvelope × ρ
  ModerationsHandler : Meta → ρ → Option υ × Option ErrorEnvelope × ρ
  StreamHandler : Meta → ρ → Option υ × Option ErrorEnvelope × ρ
  Handler : Meta → ρ → Option υ × Option ErrorEnvelope × ρ

/-- `DoResponse(meta, c, resp)`: usage, error, and the state of `c` and `resp`
afterwards. -/
def DoResponse {υ ρ : Type} (modeString : Mode → String) (h : Handlers υ ρ) (m : Meta)
    (resp : ρ) : Option υ × Option ErrorEnvelope × ρ :=
  match m.Mode with
  | Mode.ImagesGenerations => h.ImagesHandler m resp
  | Mode.ImagesEdits => h.ImagesHandler m resp
  | Mode.AudioTranscription => h.STTHandler m resp
  | Mode.AudioTranslation => h.STTHandler m resp
  | Mode.AudioSpeech => h.TTSHandler m resp
  | Mode.Rerank => h.RerankHandler m resp
  | Mode.Moderations => h.ModerationsHandler m resp
  | Mode.Embeddings =>
    if h.IsStreamResponse resp then h.StreamHandler m resp else h.Handler m resp
  | Mode.Completions =>
    if h.IsStreamResponse resp then h.StreamHandler m resp else h.Handler m resp
  | Mode.ChatCompletions =>
    if h.IsStreamResponse resp then h.StreamHandler m resp else h.Handler m resp
  | mode =>
    (none,
      some (WrapperOpenAIErrorWithMessage (unsupportedModeText modeString mode)
        "unsupported_mode" StatusBadRequest),
      resp)

/-! ## core/relay/adaptor/doc2x/adaptor.go -/

/-- `(*Adaptor).GetRequestURL(meta)` of package `doc2x`. -/
def Doc2x.GetRequestURL (m : Meta) : String × Option ConvertError :=
  match m.Mode with
  | Mode.ParsePdf => (m.Channel.BaseURL ++ "/api/v2/parse/pdf", none)
  | mode => ("", some (ConvertError.unsupportedMode mode))

/-- `(*Adaptor).ConvertRequest(meta, req)` of package `doc2x`;
`ConvertParsePdfRequest` is defined in another file of the package. -/
def Doc2x.ConvertRequest {σ : Type}
    (ConvertParsePdfRequest :
      Meta → Request σ → Option (Except ConvertError ConvertRequestResult × Request σ))
    (m : Meta) (req : Request σ) :
    Option (Except ConvertError ConvertRequestResult × Request σ) :=
  match m.Mode with
  | Mode.ParsePdf => ConvertParsePdfRequest m req
  | mode => some (Except.error (ConvertError.unsupportedMode mode), req)

/-- `(*Adaptor).DoResponse(meta, c, resp)` of package `doc2x`;
`HandleParsePdfResponse` is defined in another file of the package. -/
def Doc2x.DoResponse {υ ρ : Type} (modeString : Mode → String)
    (HandleParsePdfResponse : Meta → ρ → Option υ × Option ErrorEnvelope × ρ) (m : Meta)
    (resp : ρ) : Option υ × Option ErrorEnvelope × ρ :=
  match m.Mode with
  | Mode.ParsePdf => HandleParsePdfResponse m resp
  | mode =>
    (none,
      some (WrapperOpenAIErrorWithMessage (unsupportedModeText modeString mode)
        "unsupported_mode" StatusBadRequest),
      resp)

/-- `(*Adaptor).SetupRequestHeader(meta, _, req)` of package `doc2x`. -/
def Doc2x.SetupRequestHeader {β : Type} (m : Meta) (req : OutboundRequest β) :
    OutboundRequest β × Option String :=
  ({ req with Header := headerSet req.Header "Authorization" ("Bearer " ++ m.Channel.Key) }, none)

/-! ## Streams that hold given bytes -/

/-- `Delivers rd s data`: the reader in state `s` holds exactly `data`. Every `Read`
with a buffer of length `k > 0` stores a prefix of `data` of at most `k` bytes; its
error is nil or `io.EOF`; with `io.EOF` the stored bytes are all of `data`; with a
nil error at least one byte is stored and the reader afterwards holds the rest. -/
inductive Delivers {σ : Type} (rd : σ → Nat → ReadResult σ) : σ → List Byte → Prop where
  | intro (s : σ) (data : List Byte)
      (hlen : ∀ k, 0 < k → (rd s k).data.length ≤ k)
      (hpre : ∀ k, 0 < k → (rd s k).data = data.take (rd s k).data.length)
      (herr : ∀ k, 0 < k → (rd s k).err = none ∨ (rd s k).err = some GoError.EOF)
      (heof : ∀ k, 0 < k → (rd s k).err = some GoError.EOF → (rd s k).data = data)
      (hprog : ∀ k, 0 < k → (rd s k).err = none → (rd s k).data ≠ [])
      (hnext : ∀ k, 0 < k → (rd s k).err = none →
        Delivers rd (rd s k).next (data.drop (rd s k).data.length)) :
      Delivers rd s data

/-! ## A model of sonic on a fragment of JSON text

`sonic.Unmarshal` into a `map[string]any` decodes every JSON number to a `float64`
(the library's default, as in `encoding/json`), and `sonic.Marshal` writes a
`float64` of integer value below `1e21` in plain decimal digits. The model below
covers objects, arrays, strings of printable ASCII without escapes, integer
literals, `true`, `false` and `null`; on any other text it reports an error and
says nothing about the library. `sonic.Marshal` writes the keys of a map in the
order the Go runtime iterates it; the model writes them in the order of the
entries. -/

/-- The bytes of an ASCII text. -/
def asciiBytes (s : String) : List Byte :=
  s.data.map (fun c => Fin.ofNat c.toNat)

/-- Drop leading JSON white space (space, tab, line feed, carriage return). -/
def skipSpace : List Byte → List Byte
  | [] => []
  | b :: rest =>
    if b.val = 32 ∨ b.val = 9 ∨ b.val = 10 ∨ b.val = 13 then skipSpace rest else b :: rest

/-- Read decimal digits: their value after `acc`, and the rest of the text. -/
def readDigits : Nat → List Byte → Nat × List Byte
  | acc, [] => (acc, [])
  | acc, b :: rest =>
    if 48 ≤ b.val ∧ b.val ≤ 57 then readDigits (acc * 10 + (b.val - 48)) rest
    else (acc, b :: rest)

/-- Read a string after its opening quote, up to the closing quote. A backslash, a
control character or a byte beyond ASCII is outside the fragment. -/
def readString : List Char → List Byte → Option (String × List Byte)
  | _, [] => none
  | acc, b :: rest =>
    if b.val = 34 then some (String.mk acc.reverse, rest)
    else if b.val = 92 ∨ b.val < 32 ∨ 127 ≤ b.val then none
    else readString (Char.ofNat b.val :: acc) rest

/-- Read an integer literal (`-`? then `0` or a digit string without a leading
zero) and turn it into the number the decoder stores, `num` of its value. A
fraction, an exponent and `-0` are outside the fragment. -/
def readNumber (num : Int → Option Int) (input : List Byte) : Option (JSON × List Byte) :=
  let neg : Bool := match input with
    | b :: _ => decide (b.val = 45)
    | [] => false
  let digits := if neg then input.drop 1 else input
  match digits with
  | [] => none
  | d :: more =>
    if 48 ≤ d.val ∧ d.val ≤ 57 then
      let r := if d.val = 48 then (0, more) else readDigits 0 digits
      let goesOn : Bool := match r.2 with
        | c :: _ => decide (c.val = 46 ∨ c.val = 101 ∨ c.val = 69 ∨ (48 ≤ c.val ∧ c.val ≤ 57))
        | [] => false
      if goesOn ∨ (neg ∧ r.1 = 0) then none
      else (num (if neg then -(r.1 : Int) else (r.1 : Int))).map (fun z => (JSON.number z, r.2))
    else none

/-- Read the literal `word`, which stands for `v`. -/
def readLiteral (word : List Byte) (v : JSON) (input : List Byte) : Option (JSON × List Byte) :=
  if word.isPrefixOf input then some (v, input.drop word.length) else none

mutual

/-- Read one JSON value: the value and the rest of the text. `num` is what the
decoder makes of the value of a number literal; `fuel` bounds the nesting and the
number of members. -/
def parseValue (num : Int → Option Int) : Nat → List Byte → Option (JSON × List Byte)
  | 0, _ => none
  | fuel + 1, input =>
    match skipSpace input with
    | [] => none
    | b :: rest =>
      if b.val = 123 then
        match skipSpace rest with
        | [] => none
        | c :: after =>
          if c.val = 125 then some (JSON.object [], after)
          else parseMembers num fuel [] (c :: after)
      else if b.val = 91 then
        match skipSpace rest with
        | [] => none
        | c :: after =>
          if c.val = 93 then some (JSON.array [], after)
          else parseElements num fuel [] (c :: after)
      else if b.val = 34 then (readString [] rest).map (fun r => (JSON.string r.1, r.2))
      else if b.val = 116 then readLiteral (asciiBytes "true") (JSON.bool true) (b :: rest)
      else if b.val = 102 then readLiteral (asciiBytes "false") (JSON.bool false) (b :: rest)
      else if b.val = 110 then readLiteral (asciiBytes "null") JSON.null (b :: rest)
      else readNumber num (b :: rest)

/-- Read the members of an object up to its closing brace; a repeated key keeps its
last value, as an assignment to a Go map does. -/
def parseMembers (num : Int → Option Int) :
    Nat → ReqMap → List Byte → Option (JSON × List Byte)
  | 0, _, _ => none
  | fuel + 1, acc, input =>
    match skipSpace input with
    | [] => none
    | q :: rest =>
      if q.val = 34 then
        match readString [] rest with
        | none => none
        | some (key, rest) =>
          match skipSpace rest with
          | [] => none
          | colon :: rest =>
            if colon.val = 58 then
              match parseValue num fuel rest with
              | none => none
              | some (v, rest) =>
                match skipSpace rest with
                | [] => none
                | sep :: rest =>
                  if sep.val = 44 then parseMembers num fuel (mapSet acc key v) rest
                  else if sep.val = 125 then some (JSON.object (mapSet acc key v), rest)
                  else none
            else none
      else none

/-- Read the elements of an array up to its closing bracket. -/
def parseElements (num : Int → Option Int) :
    Nat → List JSON → List Byte → Option (JSON × List Byte)
  | 0, _, _ => none
  | fuel + 1, acc, input =>
    match parseValue num fuel input with
    | none => none
    | some (v, rest) =>
      match skipSpace rest with
      | [] => none
      | sep :: rest =>
        if sep.val = 44 then parseElements num fuel (acc ++ [v]) rest
        else if sep.val = 93 then some (JSON.array (acc ++ [v]), rest)
        else none

end

/-- Write a string of printable ASCII without quote and backslash. -/
def printString (s : String) : Option (List Byte) :=
  if s.data.all (fun c => 32 ≤ c.toNat ∧ c.toNat < 127 ∧ c.toNat ≠ 34 ∧ c.toNat ≠ 92) then
    some (asciiBytes "\"" ++ asciiBytes s ++ asciiBytes "\"")
  else none

/-- Write a `float64` of integer value below `1e21`: its decimal digits. -/
def printNumber (z : Int) : Option (List Byte) :=
  if z.natAbs < 10 ^ 21 then
    some ((if z < 0 then asciiBytes "-" else []) ++
      (Nat.toDigits 10 z.natAbs).map (fun c => Fin.ofNat c.toNat))
  else none

mutual

/-- Write a value as compact JSON text. -/
def printValue : JSON → Option (List Byte)
  | JSON.null => some (asciiBytes "null")
  | JSON.bool true => some (asciiBytes "true")
  | JSON.bool false => some (asciiBytes "false")
  | JSON.number z => printNumber z
  | JSON.string s => printString s
  | JSON.array xs => (printElements xs).map (fun t => asciiBytes "[" ++ t ++ asciiBytes "]")
  | JSON.object kvs =>
    (printMembers kvs).map (fun t => asciiBytes "\x7b" ++ t ++ asciiBytes "\x7d")

/-- Write the elements of an array, separated by commas. -/
def printElements : List JSON → Option (List Byte)
  | [] => some []
  | [x] => printValue x
  | x :: y :: rest =>
    match printValue x, printElements (y :: rest) with
    | some a, some b => some (a ++ asciiBytes "," ++ b)
    | _, _ => none

/-- Write the members of an object, separated by commas. -/
def printMembers : List (String × JSON) → Option (List Byte)
  | [] => some []
  | [(k, v)] =>
    match printString k, printValue v with
    | some a, some b => some (a ++ asciiBytes ":" ++ b)
    | _, _ => none
  | (k, v) :: e :: rest =>
    match printString k, printValue v, printMembers (e :: rest) with
    | some a, some b, some c => some (a ++ asciiBytes ":" ++ b ++ asciiBytes "," ++ c)
    | _, _, _ => none

end

/-- A stand-in for the JSON library: every body decodes to
`{"model": "gpt-4", "stream": true}`, and a map is serialized to one zero byte per
entry. -/
def sampleSonic : Sonic :=
  { Unmarshal := fun _ => Except.ok [("model", JSON.string "gpt-4"), ("stream", JSON.bool true)],
    Marshal := fun m => Except.ok (List.replicate m.length 0) }

/-- Converters that never return; `ChatCompletions` does not reach them. -/
def sampleConverters : Converters (List Byte) :=
  { ConvertEmbeddingsRequest := fun _ _ _ => none,
    ConvertImagesRequest := fun _ _ => none,
    ConvertImagesEditsRequest := fun _ _ => none,
    ConvertSTTRequest := fun _ _ => none,
    ConvertTTSRequest := fun _ _ _ => none,
    ConvertRerankRequest := fun _ _ => none }

/-- A chat-completions call resolved to the backend model `gpt-4o`. -/
def sampleMeta : Meta :=
  { Mode := Mode.ChatCompletions,
    Channel := { BaseURL := "https://api.openai.com/v1", Key := "sk-1" },
    ActualModel := "gpt-4o", OriginModel := "gpt-4" }

/-- A JSON request of three bytes read from a `bytes.Reader`. -/
def sampleRequest : Request (List Byte) :=
  { ContentType := "application/json", ContentLength := 3, ctxBody := none,
    Body := BodyReader.stream [1, 2, 3] }

/-- Handlers that report a usage of `1` and no error, on responses that are never
streams. -/
def sampleHandlers : Handlers Nat Nat :=
  { IsStreamResponse := fun _ => false,
    ImagesHandler := fun _ resp => (some 1, none, resp),
    STTHandler := fun _ resp => (some 1, none, resp),
    TTSHandler := fun _ resp => (some 1, none, resp),
    RerankHandler := fun _ resp => (some 1, none, resp),
    ModerationsHandler := fun _ resp => (some 1, none, resp),
    StreamHandler := fun _ resp => (some 1, none, resp),
    Handler := fun _ resp => (some 1, none, resp) }

/-- A text for each Mode. -/
def sampleModeString : Mode → String
  | Mode.ChatCompletions => "ChatCompletions"
  | Mode.ParsePdf => "ParsePdf"
  | _ => "Mode"

/-- A stand-in for the JSON library that rejects every body. -/
def rejectingSonic : Sonic :=
  { Unmarshal := fun _ => Except.error "invalid", Marshal := fun _ => Except.ok [] }

/-- Converters that never return, over any body state. -/
def idleConverters (σ : Type) : Converters σ :=
  { ConvertEmbeddingsRequest := fun _ _ _ => none,
    ConvertImagesRequest := fun _ _ => none,
    ConvertImagesEditsRequest := fun _ _ => none,
    ConvertSTTRequest := fun _ _ => none,
    ConvertTTSRequest := fun _ _ _ => none,
    ConvertRerankRequest := fun _ _ => none }

/-- Handlers that report neither a usage nor an error, on responses that are never
streams. -/
def idleHandlers (υ ρ : Type) : Handlers υ ρ :=
  { IsStreamResponse := fun _ => false,
    ImagesHandler := fun _ resp => (none, none, resp),
    STTHandler := fun _ resp => (none, none, resp),
    TTSHandler := fun _ resp => (none, none, resp),
    RerankHandler := fun _ resp => (none, none, resp),
    ModerationsHandler := fun _ resp => (none, none, resp),
    StreamHandler := fun _ resp => (none, none, resp),
    Handler := fun _ resp => (none, none, resp) }

/-- A body that is at its end, over any state. -/
def endedReader (σ : Type) : ReadCloser σ :=
  { Read := fun s _ => { data := [], err := some GoError.EOF, next := s }, Close := fun s => s }

theorem LimitedReader.Read_exhausted {σ : Type} (rd : σ → Nat → ReadResult σ)
    (l : LimitedReader σ) (p : Nat) (h : l.N ≤ 0) :
    LimitedReader.Read rd l p =
      { data := [], err := some GoError.ErrLimitedReaderExceeded, next := l } := by
  simp [LimitedReader.Read, h]

theorem LimitedReader.Read_budget {σ : Type} (rd : σ → Nat → ReadResult σ)
    (hrd : ∀ s k, (rd s k).data.length ≤ k) (l : LimitedReader σ) (p : Nat) (h : 0 ≤ l.N) :
    ((LimitedReader.Read rd l p).data.length : Int) + (LimitedReader.Read rd l p).next.N = l.N ∧
      0 ≤ (LimitedReader.Read rd l p).next.N := by
  unfold LimitedReader.Read
  by_cases h0 : l.N ≤ 0
  · simp [h0, h]
  · simp only [h0, if_false]
    constructor
    · omega
    · by_cases hp : (p : Int) > l.N
      · have := hrd l.R l.N.toNat
        simp only [hp, if_true]
        omega
      · have := hrd l.R p
        simp only [hp, if_false]
        omega

theorem readSeq_budget {σ : Type} (rd : σ → Nat → ReadResult σ)
    (hrd : ∀ s k, (rd s k).data.length ≤ k) (sizes : List Nat) :
    ∀ l : LimitedReader σ, 0 ≤ l.N →
      ((((readSeq rd l sizes).map (fun r => r.data.length)).sum : Nat) : Int) ≤ l.N ∧
      ∀ r ∈ readSeq rd l sizes, 0 ≤ r.next.N ∧ r.next.N ≤ l.N := by
  induction sizes with
  | nil => intro l h; simp [readSeq, h]
  | cons p ps ih =>
    intro l h
    obtain ⟨h1, h2⟩ := LimitedReader.Read_budget rd hrd l p h
    obtain ⟨ih1, ih2⟩ := ih (LimitedReader.Read rd l p).next h2
    simp only [readSeq, List.map_cons, List.sum_cons, List.mem_cons]
    constructor
    · rw [Nat.cast_add]
      omega
    · intro r hr
      rcases hr with rfl | hr
      · constructor
        · exact h2
        · omega
      · have := ih2 r hr
        constructor
        · exact this.1
        · omega

theorem bytesReaderRead_length_le (s : List Byte) (k : Nat) :
    (bytesReaderRead s k).data.length ≤ k := by
  cases s with
  | nil => simp [bytesReaderRead]
  | cons x xs => simp only [bytesReaderRead, List.length_take]; omega

/-- C4: for a `LimitedReader` created with budget `N ≥ 0` over a reader that never
returns more bytes than the buffer length it is given, and for every finite sequence
of `Read` calls with arbitrary buffer sizes, the byte counts returned sum to at most
`N`, and the remaining budget lies in `0..N` after every call. -/
theorem LimitedReader_total_at_most_budget {σ : Type} (rd : σ → Nat → ReadResult σ)
    (hrd : ∀ s k, (rd s k).data.length ≤ k) (r0 : σ) (N : Int) (hN : 0 ≤ N)
    (sizes : List Nat) :
    ((((readSeq rd (LimitReader r0 N) sizes).map (fun r => r.data.length)).sum : Nat) : Int) ≤ N ∧
      ∀ r ∈ readSeq rd (LimitReader r0 N) sizes, 0 ≤ r.next.N ∧ r.next.N ≤ N :=
  readSeq_budget rd hrd sizes (LimitReader r0 N) hN

theorem LimitedReader_total_at_most_budget_witness :
    (0 : Int) ≤ 2 ∧
      ((((readSeq bytesReaderRead (LimitReader [1, 2, 3] 2) [1, 5, 4]).map
          (fun r => r.data.length)).sum : Nat) : Int) ≤ 2 ∧
      ∀ r ∈ readSeq bytesReaderRead (LimitReader [1, 2, 3] 2) [1, 5, 4],
        0 ≤ r.next.N ∧ r.next.N ≤ 2 :=
  ⟨by decide,
    LimitedReader_total_at_most_budget bytesReaderRead bytesReaderRead_length_le [1, 2, 3] 2
      (by decide) [1, 5, 4]⟩

theorem readSeq_exhausted {σ : Type} (rd : σ → Nat → ReadResult σ) (l : LimitedReader σ)
    (h : l.N ≤ 0) (sizes : List Nat) :
    ∀ r ∈ readSeq rd l sizes,
      r.data = [] ∧ r.err = some GoError.ErrLimitedReaderExceeded ∧ r.next = l := by
  induction sizes with
  | nil => simp [readSeq]
  | cons p ps ih =>
    intro r hr
    simp only [readSeq, LimitedReader.Read_exhausted rd l p h, List.mem_cons] at hr
    rcases hr with rfl | hr
    · exact ⟨rfl, rfl, rfl⟩
    · exact ih r hr

/-- C5: a `Read` on a `LimitedReader` whose remaining budget is `≤ 0` (be it fresh,
or what a sequence of reads `sizes` left of `l0`) returns `0` bytes and
`ErrLimitedReaderExceeded`, for every buffer length and every wrapped reader; the
wrapped reader and the budget are unchanged, a call counter on the wrapped reader
does not move, and every further `Read` fails the same way. -/
theorem LimitedReader_exhausted_read_fails {σ : Type} (rd : σ → Nat → ReadResult σ)
    (l0 : LimitedReader σ) (sizes : List Nat) (p : Nat)
    (h : (afterReads rd l0 sizes).N ≤ 0) :
    LimitedReader.Read rd (afterReads rd l0 sizes) p =
        { data := [], err := some GoError.ErrLimitedReaderExceeded,
          next := afterReads rd l0 sizes } ∧
      (∀ c : Nat,
        (LimitedReader.Read (counted rd)
          { R := ((afterReads rd l0 sizes).R, c), N := (afterReads rd l0 sizes).N } p).next.R.2
          = c) ∧
      ∀ more : List Nat, ∀ r ∈ readSeq rd (afterReads rd l0 sizes) more,
        r.data = [] ∧ r.err = some GoError.ErrLimitedReaderExceeded ∧
          r.next = afterReads rd l0 sizes := by
  refine ⟨LimitedReader.Read_exhausted rd _ p h, ?_, ?_⟩
  · intro c
    rw [LimitedReader.Read_exhausted (counted rd) _ p h]
  · intro more
    exact readSeq_exhausted rd _ h more

theorem LimitedReader_exhausted_read_fails_witness :
    (afterReads bytesReaderRead (LimitReader [1, 2, 3] 2) [5]).N ≤ 0 ∧
      LimitedReader.Read bytesReaderRead (afterReads bytesReaderRead (LimitReader [1, 2, 3] 2) [5]) 4 =
        { data := [], err := some GoError.ErrLimitedReaderExceeded,
          next := afterReads bytesReaderRead (LimitReader [1, 2, 3] 2) [5] } :=
  ⟨by decide,
    (LimitedReader_exhausted_read_fails bytesReaderRead (LimitReader [1, 2, 3] 2) [5] 4
      (by decide)).1⟩

/-- C15: a single `LimitedReader.Read` with remaining budget `N > 0` and a buffer
of length `k` hands the wrapped reader a buffer of length `min(k, N)` (one call, as
the log of an instrumented reader shows), returns that reader's bytes and error
unchanged, and leaves the budget at `N - n`; with `N ≤ 0` the wrapped reader is not
called. -/
theorem LimitedReader_Read_single {σ : Type} (rd : σ → Nat → ReadResult σ)
    (l : LimitedReader σ) (k : Nat) (log : List Nat) :
    (0 < l.N →
      LimitedReader.Read rd l k =
        { data := (rd l.R (min k l.N.toNat)).data, err := (rd l.R (min k l.N.toNat)).err,
          next := { R := (rd l.R (min k l.N.toNat)).next,
                    N := l.N - ((rd l.R (min k l.N.toNat)).data.length : Int) } } ∧
      (LimitedReader.Read (recorded rd) { R := (l.R, log), N := l.N } k).next.R.2 =
        log ++ [min k l.N.toNat]) ∧
    (l.N ≤ 0 →
      (LimitedReader.Read (recorded rd) { R := (l.R, log), N := l.N } k).next.R.2 = log ∧
      (LimitedReader.Read rd l k).next = l) := by
  constructor
  · intro hN
    have hN0 : ¬ l.N ≤ 0 := by omega
    by_cases hp : (k : Int) > l.N
    · have hmin : min k l.N.toNat = l.N.toNat := by omega
      simp [LimitedReader.Read, hN0, hp, hmin, recorded]
    · have hmin : min k l.N.toNat = k := by omega
      simp [LimitedReader.Read, hN0, hp, hmin, recorded]
  · intro hN
    simp [LimitedReader.Read, hN]

theorem LimitedReader_Read_single_witness :
    (LimitedReader.Read (recorded bytesReaderRead) { R := ([1, 2, 3], []), N := 2 } 5).next.R.2 =
        [] ++ [min 5 (2 : Int).toNat] ∧
      (LimitedReader.Read (recorded bytesReaderRead) { R := ([1, 2, 3], [7]), N := 0 } 5).next.R.2 =
        [7] :=
  ⟨((LimitedReader_Read_single bytesReaderRead { R := [1, 2, 3], N := 2 } 5 []).1
      (by decide)).2,
    ((LimitedReader_Read_single bytesReaderRead { R := [1, 2, 3], N := 0 } 5 [7]).2
      (by decide)).1⟩

/-! ## `io.ReadAll` and `io.ReadFull` on streams that hold given bytes -/

theorem Delivers.stream {σ : Type} (rc : ReadCloser σ) (s : σ) (data : List Byte)
    (h : Delivers rc.Read s data) :
    Delivers (BodyReader.Read rc) (BodyReader.stream s) data := by
  induction h with
  | intro s data hlen hpre herr heof hprog _ ih =>
    exact Delivers.intro _ _ hlen hpre herr heof hprog ih

theorem bytesReader_delivers_aux :
    ∀ (n : Nat) (data : List Byte), data.length ≤ n → Delivers bytesReaderRead data data := by
  intro n
  induction n with
  | zero =>
    intro data h
    have hd : data = [] := List.length_eq_zero.mp (by omega)
    subst hd
    refine Delivers.intro _ _ ?_ ?_ ?_ ?_ ?_ ?_ <;> intro k hk <;> simp [bytesReaderRead]
  | succ n ih =>
    intro data h
    cases data with
    | nil =>
      refine Delivers.intro _ _ ?_ ?_ ?_ ?_ ?_ ?_ <;> intro k hk <;> simp [bytesReaderRead]
    | cons x xs =>
      refine Delivers.intro _ _ ?_ ?_ ?_ ?_ ?_ ?_
      · intro k hk; simp only [bytesReaderRead, List.length_take]; omega
      · intro k hk
        simp only [bytesReaderRead]
        by_cases hkl : k ≤ (x :: xs).length
        · rw [List.length_take, Nat.min_eq_left hkl]
        · rw [List.take_of_length_le (by omega), List.take_of_length_le (le_refl _)]
      · intro k hk; simp [bytesReaderRead]
      · intro k hk; simp [bytesReaderRead]
      · intro k hk _
        obtain ⟨k', rfl⟩ : ∃ k', k = k' + 1 := ⟨k - 1, by omega⟩
        simp [bytesReaderRead]
      · intro k hk _
        simp only [bytesReaderRead, List.length_take]
        have e : List.drop (min k (x :: xs).length) (x :: xs) = List.drop k (x :: xs) := by
          by_cases hkl : k ≤ (x :: xs).length
          · rw [Nat.min_eq_left hkl]
          · rw [Nat.min_eq_right (by omega), List.drop_of_length_le (le_refl _),
              List.drop_of_length_le (by omega)]
        rw [e]
        apply ih
        simp only [List.length_drop]
        simp only [List.length_cons] at h ⊢
        omega

theorem bytesReader_delivers (data : List Byte) : Delivers bytesReaderRead data data :=
  bytesReader_delivers_aux data.length data (le_refl _)

theorem ReadAllLoop_limited_delivers {σ : Type} (extra : Nat → Nat)
    (rd : σ → Nat → ReadResult σ) :
    ∀ (fuel : Nat) (s : σ) (data b : List Byte) (cap : Nat) (N : Int),
      Delivers rd s data → (data.length : Int) < N → b.length < cap → data.length < fuel →
      ∃ l, ReadAllLoop extra (LimitedReader.Read rd) fuel { R := s, N := N } b cap =
        some (b ++ data, none, l) := by
  intro fuel
  induction fuel with
  | zero => intro s data b cap N _ _ _ h; omega
  | succ fuel ih =>
    intro s data b cap N hd hN hb hfuel
    cases hd with
    | intro _ _ hlen hpre herr heof hprog hnext =>
      have hN0 : ¬ N ≤ 0 := by omega
      -- the buffer length handed to the wrapped reader
      obtain ⟨k, hk, hkcap, hkN, hread⟩ : ∃ k, 0 < k ∧ k ≤ cap - b.length ∧ (k : Int) ≤ N ∧
          LimitedReader.Read rd { R := s, N := N } (cap - b.length) =
            { data := (rd s k).data, err := (rd s k).err,
              next := { R := (rd s k).next, N := N - ((rd s k).data.length : Int) } } := by
        by_cases hp : ((cap - b.length : Nat) : Int) > N
        · refine ⟨N.toNat, by omega, by omega, by omega, ?_⟩
          simp [LimitedReader.Read, hN0, hp]
        · refine ⟨cap - b.length, by omega, le_refl _, by omega, ?_⟩
          simp [LimitedReader.Read, hN0, hp]
      have hl := hlen k hk
      have hp := hpre k hk
      unfold ReadAllLoop
      rw [hread]
      have h1 : ¬ cap < b.length + (rd s k).data.length := by omega
      simp only [h1, if_false]
      rcases herr k hk with he | he
      · -- nil error: at least one byte, go round again
        have hne := hprog k hk he
        have hpos : 0 < (rd s k).data.length := List.length_pos.mpr hne
        have hle : (rd s k).data.length ≤ data.length := by
          have := congrArg List.length hp
          rw [List.length_take] at this
          omega
        have hrest : (data.drop (rd s k).data.length).length = data.length - (rd s k).data.length :=
          List.length_drop _ _
        have h3 : (b ++ (rd s k).data).length <
            (if (b ++ (rd s k).data).length = cap then cap + 1 + extra cap else cap) := by
          simp only [List.length_append]
          split <;> omega
        obtain ⟨l, hl'⟩ := ih (rd s k).next (data.drop (rd s k).data.length)
          (b ++ (rd s k).data) _ (N - ((rd s k).data.length : Int)) (hnext k hk he)
          (by omega) h3 (by omega)
        refine ⟨l, ?_⟩
        simp only [he]
        rw [hl', List.append_assoc]
        congr 3
        conv_rhs => rw [← List.take_append_drop (rd s k).data.length data]
        rw [← hp]
      · -- io.EOF: everything has arrived
        refine ⟨{ R := (rd s k).next, N := N - ((rd s k).data.length : Int) }, ?_⟩
        simp only [he, if_true, heof k hk he]

theorem ReadAtLeastLoop_delivers {σ : Type} (rd : σ → Nat → ReadResult σ) (len : Nat) :
    ∀ (fuel : Nat) (s : σ) (data got : List Byte),
      Delivers rd s data → got.length + data.length = len → data.length ≤ fuel →
      ∃ err s', ReadAtLeastLoop rd len len fuel s got none = some (got ++ data, err, s') := by
  intro fuel
  induction fuel with
  | zero =>
    intro s data got _ hlen hfuel
    have hd : data = [] := List.length_eq_zero.mp (by omega)
    subst hd
    have : ¬ got.length < len := by simp at hlen; omega
    exact ⟨none, s, by simp [ReadAtLeastLoop, this]⟩
  | succ fuel ih =>
    intro s data got hd hlen hfuel
    by_cases hdata : data = []
    · subst hdata
      have : ¬ got.length < len := by simp at hlen; omega
      exact ⟨none, s, by simp [ReadAtLeastLoop, this]⟩
    · have hdpos : 0 < data.length := List.length_pos.mpr hdata
      have hgot : got.length < len := by omega
      have hk : 0 < len - got.length := by omega
      cases hd with
      | intro _ _ hl hpre herr heof hprog hnext =>
        have hp := hpre _ hk
        simp only [ReadAtLeastLoop, hgot, and_self, if_true]
        rcases herr _ hk with he | he
        · have hne := hprog _ hk he
          have hpos : 0 < (rd s (len - got.length)).data.length := List.length_pos.mpr hne
          have hle : (rd s (len - got.length)).data.length ≤ data.length := by
            have := congrArg List.length hp
            rw [List.length_take] at this
            omega
          obtain ⟨err, s', h'⟩ := ih (rd s (len - got.length)).next
            (data.drop (rd s (len - got.length)).data.length)
            (got ++ (rd s (len - got.length)).data) (hnext _ hk he)
            (by simp only [List.length_append, List.length_drop]; omega)
            (by simp only [List.length_drop]; omega)
          refine ⟨err, s', ?_⟩
          rw [he, h', List.append_assoc]
          congr 3
          conv_rhs => rw [← List.take_append_drop (rd s (len - got.length)).data.length data]
          rw [← hp]
        · have hall := heof _ hk he
          refine ⟨some GoError.EOF, (rd s (len - got.length)).next, ?_⟩
          rw [he, hall]
          have : ¬ (got ++ data).length < len := by simp only [List.length_append]; omega
          cases fuel <;> simp [ReadAtLeastLoop, this]

theorem ReadFull_delivers {σ : Type} (rd : σ → Nat → ReadResult σ) (fuel : Nat) (s : σ)
    (data : List Byte) (hd : Delivers rd s data) (hfuel : data.length ≤ fuel) :
    ∃ s', ReadFull rd fuel s data.length = some (data.length, data, none, s') := by
  obtain ⟨err, s', h⟩ := ReadAtLeastLoop_delivers rd data.length fuel s data [] hd (by simp) hfuel
  refine ⟨s', ?_⟩
  simp only [List.nil_append] at h
  simp [ReadFull, ReadAtLeast, h]

theorem ReadAtLeastLoop_delivers_first {σ : Type} (rd : σ → Nat → ReadResult σ) (len : Nat) :
    ∀ (fuel : Nat) (s : σ) (data got : List Byte),
      Delivers rd s data → got.length ≤ len → len - got.length ≤ data.length →
      len - got.length ≤ fuel →
      ∃ err s', ReadAtLeastLoop rd len len fuel s got none =
        some (got ++ data.take (len - got.length), err, s') := by
  intro fuel
  induction fuel with
  | zero =>
    intro s data got _ hgot _ hfuel
    have hfull : ¬ got.length < len := by omega
    have h0 : len - got.length = 0 := by omega
    exact ⟨none, s, by simp [ReadAtLeastLoop, hfull, h0]⟩
  | succ fuel ih =>
    intro s data got hd hgot hdata hfuel
    by_cases hfull : got.length < len
    · have hk : 0 < len - got.length := by omega
      cases hd with
      | intro _ _ hl hpre herr heof hprog hnext =>
        have hp := hpre _ hk
        have hlk := hl _ hk
        simp only [ReadAtLeastLoop, hfull, and_self, if_true]
        rcases herr _ hk with he | he
        · have hne := hprog _ hk he
          have hpos : 0 < (rd s (len - got.length)).data.length := List.length_pos.mpr hne
          have hle : (rd s (len - got.length)).data.length ≤ data.length := by
            have := congrArg List.length hp
            rw [List.length_take] at this
            omega
          obtain ⟨err, s', h'⟩ := ih (rd s (len - got.length)).next
            (data.drop (rd s (len - got.length)).data.length)
            (got ++ (rd s (len - got.length)).data) (hnext _ hk he)
            (by simp only [List.length_append]; omega)
            (by simp only [List.length_append, List.length_drop]; omega)
            (by simp only [List.length_append]; omega)
          refine ⟨err, s', ?_⟩
          rw [he, h', List.append_assoc]
          congr 3
          have hsplit : len - got.length =
              (rd s (len - got.length)).data.length +
                (len - (got ++ (rd s (len - got.length)).data).length) := by
            simp only [List.length_append]; omega
          conv_rhs => rw [hsplit, List.take_add, ← hp]
        · have hall := heof _ hk he
          have hdl : data.length = len - got.length := by
            have := congrArg List.length hall
            omega
          refine ⟨some GoError.EOF, (rd s (len - got.length)).next, ?_⟩
          rw [he, hall, ← hdl, List.take_of_length_le (le_refl _)]
          cases fuel <;> simp [ReadAtLeastLoop]
    · have h0 : len - got.length = 0 := by omega
      exact ⟨none, s, by simp [ReadAtLeastLoop, hfull, h0]⟩

theorem ReadAtLeastLoop_delivers_short {σ : Type} (rd : σ → Nat → ReadResult σ) (len : Nat) :
    ∀ (fuel : Nat) (s : σ) (data got : List Byte),
      Delivers rd s data → got.length + data.length < len → data.length < fuel →
      ∃ s', ReadAtLeastLoop rd len len fuel s got none =
        some (got ++ data, some GoError.EOF, s') := by
  intro fuel
  induction fuel with
  | zero => intro s data got _ _ h; omega
  | succ fuel ih =>
    intro s data got hd hshort hfuel
    have hfull : got.length < len := by omega
    have hk : 0 < len - got.length := by omega
    cases hd with
    | intro _ _ hl hpre herr heof hprog hnext =>
      have hp := hpre _ hk
      simp only [ReadAtLeastLoop, hfull, and_self, if_true]
      rcases herr _ hk with he | he
      · have hne := hprog _ hk he
        have hpos : 0 < (rd s (len - got.length)).data.length := List.length_pos.mpr hne
        have hle : (rd s (len - got.length)).data.length ≤ data.length := by
          have := congrArg List.length hp
          rw [List.length_take] at this
          omega
        obtain ⟨s', h'⟩ := ih (rd s (len - got.length)).next
          (data.drop (rd s (len - got.length)).data.length)
          (got ++ (rd s (len - got.length)).data) (hnext _ hk he)
          (by simp only [List.length_append, List.length_drop]; omega)
          (by simp only [List.length_drop]; omega)
        refine ⟨s', ?_⟩
        rw [he, h', List.append_assoc]
        congr 3
        conv_rhs => rw [← List.take_append_drop (rd s (len - got.length)).data.length data]
        rw [← hp]
      · have hall := heof _ hk he
        refine ⟨(rd s (len - got.length)).next, ?_⟩
        rw [he, hall]
        cases fuel <;> simp [ReadAtLeastLoop]

theorem ReadFull_delivers_first {σ : Type} (rd : σ → Nat → ReadResult σ) (fuel : Nat) (s : σ)
    (data : List Byte) (L : Nat) (hd : Delivers rd s data) (hL : L ≤ data.length)
    (hfuel : L ≤ fuel) :
    ∃ s', ReadFull rd fuel s L = some (L, data.take L, none, s') := by
  obtain ⟨err, s', h⟩ := ReadAtLeastLoop_delivers_first rd L fuel s data [] hd (by simp)
    (by simpa using hL) (by simpa using hfuel)
  refine ⟨s', ?_⟩
  simp only [List.nil_append, List.length_nil, Nat.sub_zero] at h
  have hlen : (data.take L).length = L := by rw [List.length_take]; omega
  simp [ReadFull, ReadAtLeast, h, hlen]

theorem ReadFull_delivers_short {σ : Type} (rd : σ → Nat → ReadResult σ) (fuel : Nat) (s : σ)
    (data : List Byte) (L : Nat) (hd : Delivers rd s data) (hL : data.length < L)
    (hfuel : data.length < fuel) :
    ∃ buf s', ReadFull rd fuel s L =
      some (data.length, buf,
        some (if 0 < data.length then GoError.ErrUnexpectedEOF else GoError.EOF), s') := by
  obtain ⟨s', h⟩ := ReadAtLeastLoop_delivers_short rd L fuel s data [] hd (by simpa using hL) hfuel
  simp only [List.nil_append] at h
  have hn : ¬ data.length ≥ L := by omega
  refine ⟨(data ++ List.replicate (L - data.length) 0).take L, s', ?_⟩
  simp only [ReadFull, ReadAtLeast, Nat.lt_irrefl, if_false, h, hn, and_true]
  by_cases hpos : 0 < data.length
  · simp [hpos]
  · simp [hpos]

theorem LimitedReader.Read_bytes_stream (rest : List Byte) (p : Nat) (hrest : rest ≠ []) :
    LimitedReader.Read (BodyReader.Read bytesReader)
        { R := BodyReader.stream rest, N := (rest.length : Int) } p =
      { data := rest.take p, err := none,
        next := { R := BodyReader.stream (rest.drop p), N := ((rest.drop p).length : Int) } } := by
  have hlen : 0 < rest.length := List.length_pos.mpr hrest
  have hN : ¬ ((rest.length : Nat) : Int) ≤ 0 := by omega
  obtain ⟨x, xs, rfl⟩ := List.exists_cons_of_ne_nil hrest
  unfold LimitedReader.Read
  simp only [hN, if_false]
  by_cases hp : (p : Int) > (((x :: xs).length : Nat) : Int)
  · have hp' : (x :: xs).length ≤ p := by omega
    simp only [hp, if_true, Int.toNat_ofNat, BodyReader.Read, bytesReader, bytesReaderRead]
    rw [List.take_of_length_le (le_refl _), List.take_of_length_le hp',
      List.drop_of_length_le (le_refl _), List.drop_of_length_le hp']
    simp
  · simp only [hp, if_false, BodyReader.Read, bytesReader, bytesReaderRead]
    have hp' : p ≤ (x :: xs).length := by omega
    simp only [List.length_take, List.length_drop, ReadResult.mk.injEq, LimitedReader.mk.injEq,
      true_and]
    omega

theorem ReadAllLoop_limited_bytes (extra : Nat → Nat) :
    ∀ (fuel : Nat) (rest b : List Byte) (cap : Nat), b.length < cap → rest.length < fuel →
      ReadAllLoop extra (LimitedReader.Read (BodyReader.Read bytesReader)) fuel
          { R := BodyReader.stream rest, N := (rest.length : Int) } b cap =
        some (b ++ rest, some GoError.ErrLimitedReaderExceeded,
          { R := BodyReader.stream [], N := 0 }) := by
  intro fuel
  induction fuel with
  | zero => intro rest b cap _ h; omega
  | succ fuel ih =>
    intro rest b cap hb hfuel
    by_cases hrest : rest = []
    · subst hrest
      have : b.length ≤ cap := by omega
      simp [ReadAllLoop, LimitedReader.Read, this]
    · have hlen : 0 < rest.length := List.length_pos.mpr hrest
      unfold ReadAllLoop
      rw [LimitedReader.Read_bytes_stream rest (cap - b.length) hrest]
      have h1 : ¬ cap < b.length + (rest.take (cap - b.length)).length := by
        simp only [List.length_take]; omega
      simp only [h1, if_false]
      have h2 : (rest.drop (cap - b.length)).length < fuel := by
        simp only [List.length_drop]; omega
      have h3 : (b ++ rest.take (cap - b.length)).length <
          (if (b ++ rest.take (cap - b.length)).length = cap then cap + 1 + extra cap else cap) := by
        simp only [List.length_append, List.length_take]
        split <;> omega
      rw [ih _ _ _ h3 h2]
      simp

/-! ## `GetRequestBody` (C1, C2, C3, C13, C14) -/

theorem MaxRequestBodySize_pos : 0 < MaxRequestBodySize := by
  unfold MaxRequestBodySize
  norm_num

theorem hasPrefix_append (a b : String) : hasPrefix (a ++ b) a = true := by
  simp [hasPrefix, String.data_append]

theorem BodyError.declaredTooLarge_message (n : Int) :
    hasPrefix (BodyError.declaredTooLarge n).Error "request body too large" = true := by
  have h : ("request body too large: " : String) = "request body too large" ++ ": " := by decide
  simp only [BodyError.Error, h, String.append_assoc]
  exact hasPrefix_append _ _

theorem BodyError.tooLarge_message :
    hasPrefix BodyError.tooLarge.Error "request body too large" = true := by
  have h : ("request body too large, max: " : String) = "request body too large" ++ ", max: " := by
    decide
  simp only [BodyError.Error, h, String.append_assoc]
  exact hasPrefix_append _ _

/-- The part of C1 that the code meets, for every reader: a request (content type
neither form-encoded nor multipart, nothing cached) whose stream holds exactly the
`L` bytes `data`, with `ContentLength = L ≤ MaxRequestBodySize`, gets exactly `data`
back, cached and re-readable, provided `L < MaxRequestBodySize` or the request takes
the declared-length path (`L > 0` and a content type not starting with
`application/json`). -/
theorem GetRequestBody_returns_body {σ : Type} (extra : Nat → Nat) (rc : ReadCloser σ)
    (fuel : Nat) (req : Request σ) (s : σ) (data : List Byte)
    (hform : req.ContentType ≠ "application/x-www-form-urlencoded")
    (hmulti : hasPrefix req.ContentType "multipart/form-data" = false)
    (hctx : req.ctxBody = none) (hbody : req.Body = BodyReader.stream s)
    (hd : Delivers rc.Read s data) (hcl : req.ContentLength = (data.length : Int))
    (hcap : data.length ≤ MaxRequestBodySize)
    (hpath : data.length < MaxRequestBodySize ∨
      (0 < data.length ∧ hasPrefix req.ContentType "application/json" = false))
    (hfuel : data.length < fuel) :
    GetRequestBody extra rc fuel req =
      some (Except.ok data,
        { req with ctxBody := some data, Body := BodyReader.buffer data }) := by
  have hds := Delivers.stream rc s data hd
  by_cases hcond : req.ContentLength ≤ 0 ∨ hasPrefix req.ContentType "application/json" = true
  · have hlt : data.length < MaxRequestBodySize := by
      rcases hpath with h | ⟨hpos, hj⟩
      · exact h
      · rcases hcond with h0 | h1
        · omega
        · rw [hj] at h1; cases h1
    obtain ⟨l, hl⟩ := ReadAllLoop_limited_delivers extra (BodyReader.Read rc) fuel
      (BodyReader.stream s) data [] 512 (MaxRequestBodySize : Int) hds (by omega) (by simp) hfuel
    simp only [List.nil_append] at hl
    simp only [GetRequestBody, hform, hmulti, hctx, hcond, hbody, ReadAll, LimitReader, hl,
      SetRequestBody, false_or, if_false, if_true, Bool.false_eq_true]
  · have hpos : ¬ req.ContentLength ≤ 0 := fun h => hcond (Or.inl h)
    have hbig : ¬ req.ContentLength > (MaxRequestBodySize : Int) := by omega
    obtain ⟨s', hs'⟩ := ReadFull_delivers (BodyReader.Read rc) fuel (BodyReader.stream s) data hds
      (by omega)
    have hnat : req.ContentLength.toNat = data.length := by omega
    simp only [GetRequestBody, hform, hmulti, hctx, hcond, hbig, hbody, hnat, hs',
      SetRequestBody, false_or, if_false, Bool.false_eq_true]

theorem GetRequestBody_json_at_cap (extra : Nat → Nat) (k : Nat) (data : List Byte)
    (cl : Int) (hdata : data.length = MaxRequestBodySize) :
    GetRequestBody extra bytesReader (MaxRequestBodySize + 1 + k)
        { ContentType := "application/json", ContentLength := cl,
          ctxBody := none, Body := BodyReader.stream data } =
      some (Except.error BodyError.tooLarge,
        { ContentType := "application/json", ContentLength := cl,
          ctxBody := none, Body := BodyReader.stream [] }) := by
  have h1 : hasPrefix "application/json" "multipart/form-data" = false := by decide
  have h2 : hasPrefix "application/json" "application/json" = true := by decide
  have h3 := ReadAllLoop_limited_bytes extra (MaxRequestBodySize + 1 + k) data [] 512
    (by simp) (by omega)
  rw [hdata] at h3
  simp only [GetRequestBody, h1, h2, ReadAll, LimitReader, h3]
  simp [BodyReader.Close, bytesReader]

/-- C1, the failing input: a body of exactly `MaxRequestBodySize` bytes with an
accurate declared length, read from a `bytes.Reader`. With
`Content-Type: application/json` `GetRequestBody` returns the "request body too
large" error (for every capacity growth and every fuel from
`MaxRequestBodySize + 1` on), while the same body under `text/plain` is returned
in full. -/
theorem GetRequestBody_json_exactly_cap_rejected (extra : Nat → Nat) (k : Nat) :
    GetRequestBody extra bytesReader (MaxRequestBodySize + 1 + k)
        { ContentType := "application/json", ContentLength := (MaxRequestBodySize : Int),
          ctxBody := none, Body := BodyReader.stream (List.replicate MaxRequestBodySize 0) } =
      some (Except.error BodyError.tooLarge,
        { ContentType := "application/json", ContentLength := (MaxRequestBodySize : Int),
          ctxBody := none, Body := BodyReader.stream [] }) ∧
    hasPrefix BodyError.tooLarge.Error "request body too large" = true ∧
    GetRequestBody extra bytesReader (MaxRequestBodySize + 1 + k)
        { ContentType := "text/plain", ContentLength := (MaxRequestBodySize : Int),
          ctxBody := none, Body := BodyReader.stream (List.replicate MaxRequestBodySize 0) } =
      some (Except.ok (List.replicate MaxRequestBodySize 0),
        { ContentType := "text/plain", ContentLength := (MaxRequestBodySize : Int),
          ctxBody := some (List.replicate MaxRequestBodySize 0),
          Body := BodyReader.buffer (List.replicate MaxRequestBodySize 0) }) := by
  have hlen : (List.replicate MaxRequestBodySize (0 : Byte)).length = MaxRequestBodySize :=
    List.length_replicate _ _
  refine ⟨GetRequestBody_json_at_cap extra k _ _ hlen, BodyError.tooLarge_message, ?_⟩
  exact GetRequestBody_returns_body extra bytesReader (MaxRequestBodySize + 1 + k)
    { ContentType := "text/plain", ContentLength := (MaxRequestBodySize : Int),
      ctxBody := none, Body := BodyReader.stream (List.replicate MaxRequestBodySize 0) }
    (List.replicate MaxRequestBodySize 0) (List.replicate MaxRequestBodySize 0)
    (by decide) (by decide) rfl rfl (bytesReader_delivers _) (by rw [hlen])
    (by rw [hlen])
    (Or.inr ⟨by rw [hlen]; exact MaxRequestBodySize_pos, by decide⟩)
    (by rw [hlen]; omega)

/-- C2 (as amended): when the content type is none of form-encoded, multipart, or
one starting with `application/json`, no body is cached and the declared
`ContentLength` exceeds `MaxRequestBodySize`, `GetRequestBody` returns the
"request body too large" error for every reader and every amount of fuel (zero
included: no `Read` is made), returns no bytes and caches none. -/
theorem GetRequestBody_declared_over_cap {σ : Type} (extra : Nat → Nat) (rc : ReadCloser σ)
    (fuel : Nat) (req : Request σ)
    (hform : req.ContentType ≠ "application/x-www-form-urlencoded")
    (hmulti : hasPrefix req.ContentType "multipart/form-data" = false)
    (hjson : hasPrefix req.ContentType "application/json" = false)
    (hctx : req.ctxBody = none)
    (hlen : req.ContentLength > (MaxRequestBodySize : Int)) :
    GetRequestBody extra rc fuel req =
        some (Except.error (BodyError.declaredTooLarge req.ContentLength),
          { req with Body := BodyReader.buffer [] }) ∧
      GetRequestBody extra rc 0 req = GetRequestBody extra rc fuel req ∧
      ({ req with Body := BodyReader.buffer [] } : Request σ).ctxBody = none ∧
      hasPrefix (BodyError.declaredTooLarge req.ContentLength).Error "request body too large"
        = true := by
  have hpos : ¬ req.ContentLength ≤ 0 := by
    have : (0 : Int) ≤ (MaxRequestBodySize : Int) := Int.ofNat_nonneg _
    omega
  refine ⟨?_, ?_, hctx, BodyError.declaredTooLarge_message _⟩
  · simp [GetRequestBody, hform, hmulti, hjson, hctx, hpos, hlen]
  · simp [GetRequestBody, hform, hmulti, hjson, hctx, hpos, hlen]

theorem GetRequestBody_declared_over_cap_witness :
    GetRequestBody (fun _ => 0) bytesReader 7
        { ContentType := "text/plain", ContentLength := 52428801, ctxBody := none,
          Body := BodyReader.stream [1, 2, 3] } =
      some (Except.error (BodyError.declaredTooLarge 52428801),
        { ContentType := "text/plain", ContentLength := 52428801, ctxBody := none,
          Body := BodyReader.buffer [] }) :=
  (GetRequestBody_declared_over_cap (fun _ => 0) bytesReader 7
    { ContentType := "text/plain", ContentLength := 52428801, ctxBody := none,
      Body := BodyReader.stream [1, 2, 3] }
    (by decide) (by decide) (by decide) rfl (by decide)).1

/-- C2 fails as stated: with `Content-Type: application/json`, a declared length of
`MaxRequestBodySize + 1` and a source that holds three bytes, `GetRequestBody`
reads the source, returns the three bytes and caches them. -/
theorem GetRequestBody_json_ignores_declared_length :
    GetRequestBody (fun _ => 0) bytesReader 2
        { ContentType := "application/json", ContentLength := (MaxRequestBodySize : Int) + 1,
          ctxBody := none, Body := BodyReader.stream [1, 2, 3] } =
      some (Except.ok [1, 2, 3],
        { ContentType := "application/json", ContentLength := (MaxRequestBodySize : Int) + 1,
          ctxBody := some [1, 2, 3], Body := BodyReader.buffer [1, 2, 3] }) := by
  rfl

theorem GetRequestBody_ok_inv {σ : Type} (extra : Nat → Nat) (rc : ReadCloser σ)
    (fuel : Nat) (req req' : Request σ) (b : List Byte)
    (hform : req.ContentType ≠ "application/x-www-form-urlencoded")
    (hmulti : hasPrefix req.ContentType "multipart/form-data" = false)
    (hcall : GetRequestBody extra rc fuel req = some (Except.ok b, req')) :
    req'.ContentType = req.ContentType ∧ req'.ctxBody = some b ∧
      (req.ctxBody = none → req'.Body = BodyReader.buffer b) := by
  unfold GetRequestBody at hcall
  simp only [hform, hmulti, false_or, Bool.false_eq_true, if_false] at hcall
  split at hcall
  · rename_i c hc
    simp only [Option.some.injEq, Prod.mk.injEq, Except.ok.injEq] at hcall
    obtain ⟨rfl, rfl⟩ := hcall
    exact ⟨rfl, hc, fun h => by simp [h] at hc⟩
  · split at hcall
    · split at hcall
      · simp at hcall
      · split at hcall <;> simp at hcall
      · simp only [Option.some.injEq, Prod.mk.injEq, Except.ok.injEq] at hcall
        obtain ⟨rfl, rfl⟩ := hcall
        simp [SetRequestBody]
    · split at hcall
      · simp at hcall
      · split at hcall
        · simp at hcall
        · simp at hcall
        · simp only [Option.some.injEq, Prod.mk.injEq, Except.ok.injEq] at hcall
          obtain ⟨rfl, rfl⟩ := hcall
          simp [SetRequestBody]

theorem GetRequestBody_cached {σ : Type} (extra : Nat → Nat) (rc : ReadCloser σ)
    (fuel : Nat) (req : Request σ) (b : List Byte)
    (hform : req.ContentType ≠ "application/x-www-form-urlencoded")
    (hmulti : hasPrefix req.ContentType "multipart/form-data" = false)
    (hctx : req.ctxBody = some b) :
    GetRequestBody extra rc fuel req = some (Except.ok b, req) := by
  simp [GetRequestBody, hform, hmulti, hctx]

/-- C3 (as amended): after a `GetRequestBody` that succeeded with bytes `b` on a
request whose content type is neither form-encoded nor multipart, every later
`GetRequestBody` on the request returns `b` with no error, for every reader and
with zero fuel (it makes no `Read`), and leaves the request as it is; when the
successful call found no cached body, `req.Body` is afterwards a fresh buffer over
`b`; and `GetRequestBody` after `SetRequestBody(r, c)` returns `c`. -/
theorem GetRequestBody_memoized {σ : Type} (extra : Nat → Nat) (rc : ReadCloser σ)
    (fuel : Nat) (req req' : Request σ) (b : List Byte)
    (hform : req.ContentType ≠ "application/x-www-form-urlencoded")
    (hmulti : hasPrefix req.ContentType "multipart/form-data" = false)
    (hcall : GetRequestBody extra rc fuel req = some (Except.ok b, req')) :
    (∀ (extra' : Nat → Nat) (rc' : ReadCloser σ) (fuel' : Nat),
        GetRequestBody extra' rc' fuel' req' = some (Except.ok b, req')) ∧
      (req.ctxBody = none → req'.Body = BodyReader.buffer b) ∧
      (∀ (r : Request σ) (c : List Byte) (extra' : Nat → Nat) (rc' : ReadCloser σ) (fuel' : Nat),
        r.ContentType ≠ "application/x-www-form-urlencoded" →
        hasPrefix r.ContentType "multipart/form-data" = false →
        GetRequestBody extra' rc' fuel' (SetRequestBody r c) =
          some (Except.ok c, SetRequestBody r c)) := by
  obtain ⟨hct, hctx, hbody⟩ := GetRequestBody_ok_inv extra rc fuel req req' b hform hmulti hcall
  refine ⟨?_, hbody, ?_⟩
  · intro extra' rc' fuel'
    exact GetRequestBody_cached extra' rc' fuel' req' b (hct ▸ hform) (hct ▸ hmulti) hctx
  · intro r c extra' rc' fuel' h1 h2
    exact GetRequestBody_cached extra' rc' fuel' (SetRequestBody r c) c h1 h2 rfl

theorem GetRequestBody_memoized_witness :
    GetRequestBody (fun _ => 0) bytesReader 0
        { ContentType := "text/plain", ContentLength := 3, ctxBody := some [1, 2, 3],
          Body := BodyReader.buffer [1, 2, 3] } =
      some (Except.ok [1, 2, 3],
        { ContentType := "text/plain", ContentLength := 3, ctxBody := some [1, 2, 3],
          Body := BodyReader.buffer [1, 2, 3] }) :=
  (GetRequestBody_memoized (fun _ => 0) bytesReader 4
    { ContentType := "text/plain", ContentLength := 3, ctxBody := none,
      Body := BodyReader.stream [1, 2, 3] }
    { ContentType := "text/plain", ContentLength := 3, ctxBody := some [1, 2, 3],
      Body := BodyReader.buffer [1, 2, 3] }
    [1, 2, 3] (by decide) (by decide) (by rfl)).1 (fun _ => 0) bytesReader 0

/-- C3 fails as stated: on a request that `SetRequestBody` primed with `[1]` while
its body stream still holds `[9, 9]`, `GetRequestBody` succeeds with `[1]` and the
body stream is still that stream, not a reader over `[1]`. -/
theorem GetRequestBody_cache_hit_keeps_stream :
    GetRequestBody (fun _ => 0) bytesReader 4
        (SetRequestBody
          { ContentType := "text/plain", ContentLength := 2, ctxBody := none,
            Body := BodyReader.stream [9, 9] } [1]) =
      some (Except.ok [1],
        { ContentType := "text/plain", ContentLength := 2, ctxBody := some [1],
          Body := BodyReader.stream [9, 9] }) ∧
      (BodyReader.stream [9, 9] : BodyReader (List Byte)) ≠ BodyReader.buffer [1] := by
  constructor
  · rfl
  · intro h
    cases h

/-- C13 (as amended): for a request whose content type is none of form-encoded,
multipart, or one starting with `application/json`, with nothing cached and a
declared `ContentLength` `L`, `0 < L ≤ MaxRequestBodySize`, whose stream holds the
bytes `data`: when `data` has at least `L` bytes `GetRequestBody` returns exactly
the first `L` of them (and caches them); when `data` has fewer than `L` bytes it
fails with the read error (wrapping `io.ErrUnexpectedEOF`, or `io.EOF` for an empty
stream) and caches nothing. -/
theorem GetRequestBody_declared_length {σ : Type} (extra : Nat → Nat) (rc : ReadCloser σ)
    (fuel : Nat) (req : Request σ) (s : σ) (data : List Byte) (L : Nat)
    (hform : req.ContentType ≠ "application/x-www-form-urlencoded")
    (hmulti : hasPrefix req.ContentType "multipart/form-data" = false)
    (hjson : hasPrefix req.ContentType "application/json" = false)
    (hctx : req.ctxBody = none) (hbody : req.Body = BodyReader.stream s)
    (hd : Delivers rc.Read s data) (hcl : req.ContentLength = (L : Int))
    (hL0 : 0 < L) (hLmax : L ≤ MaxRequestBodySize) :
    (L ≤ data.length → L ≤ fuel →
      GetRequestBody extra rc fuel req =
        some (Except.ok (data.take L),
          { req with ctxBody := some (data.take L), Body := BodyReader.buffer (data.take L) })) ∧
    (data.length < L → data.length < fuel →
      ∃ e req', GetRequestBody extra rc fuel req =
          some (Except.error (BodyError.readFailed e), req') ∧
        (e = GoError.EOF ∨ e = GoError.ErrUnexpectedEOF) ∧ req'.ctxBody = none) := by
  have hds := Delivers.stream rc s data hd
  have hpos : ¬ req.ContentLength ≤ 0 := by omega
  have hbig : ¬ req.ContentLength > (MaxRequestBodySize : Int) := by omega
  have hnat : req.ContentLength.toNat = L := by omega
  constructor
  · intro hL hfuel
    obtain ⟨s', hs'⟩ := ReadFull_delivers_first (BodyReader.Read rc) fuel (BodyReader.stream s)
      data L hds hL hfuel
    simp only [GetRequestBody, hform, hmulti, hjson, hctx, hpos, hbig, hbody, hnat, hs',
      SetRequestBody, false_or, or_self, if_false, Bool.false_eq_true]
  · intro hL hfuel
    obtain ⟨buf, s', hs'⟩ := ReadFull_delivers_short (BodyReader.Read rc) fuel
      (BodyReader.stream s) data L hds hL hfuel
    refine ⟨if 0 < data.length then GoError.ErrUnexpectedEOF else GoError.EOF,
      { req with Body := BodyReader.Close rc s' }, ?_, ?_, hctx⟩
    · simp only [GetRequestBody, hform, hmulti, hjson, hctx, hpos, hbig, hbody, hnat, hs',
        false_or, or_self, if_false, Bool.false_eq_true]
    · by_cases h0 : 0 < data.length
      · simp [h0]
      · simp [h0]

theorem GetRequestBody_declared_length_witness :
    GetRequestBody (fun _ => 0) bytesReader 4
        { ContentType := "text/plain", ContentLength := 2, ctxBody := none,
          Body := BodyReader.stream [1, 2, 3] } =
      some (Except.ok [1, 2],
        { ContentType := "text/plain", ContentLength := 2, ctxBody := some [1, 2],
          Body := BodyReader.buffer [1, 2] }) :=
  (GetRequestBody_declared_length (fun _ => 0) bytesReader 4
    { ContentType := "text/plain", ContentLength := 2, ctxBody := none,
      Body := BodyReader.stream [1, 2, 3] }
    [1, 2, 3] [1, 2, 3] 2 (by decide) (by decide) (by decide) rfl rfl
    (bytesReader_delivers _) rfl (by decide) (by simp [MaxRequestBodySize])).1
    (by decide) (by decide)

/-- C13 fails as stated: with `Content-Type: application/json` the declared length
is not used. A request declaring 2 bytes whose stream holds `[1, 2, 3]` gets all
three bytes, not the first two; a request declaring 5 bytes whose stream holds
`[1, 2, 3]` succeeds with those three bytes and caches them. -/
theorem GetRequestBody_json_reads_to_end :
    GetRequestBody (fun _ => 0) bytesReader 4
        { ContentType := "application/json", ContentLength := 2, ctxBody := none,
          Body := BodyReader.stream [1, 2, 3] } =
      some (Except.ok [1, 2, 3],
        { ContentType := "application/json", ContentLength := 2, ctxBody := some [1, 2, 3],
          Body := BodyReader.buffer [1, 2, 3] }) ∧
    GetRequestBody (fun _ => 0) bytesReader 4
        { ContentType := "application/json", ContentLength := 5, ctxBody := none,
          Body := BodyReader.stream [1, 2, 3] } =
      some (Except.ok [1, 2, 3],
        { ContentType := "application/json", ContentLength := 5, ctxBody := some [1, 2, 3],
          Body := BodyReader.buffer [1, 2, 3] }) := by
  constructor <;> rfl

/-- C14: for a request whose `Content-Type` is exactly
`"application/x-www-form-urlencoded"` or starts with `"multipart/form-data"`,
`GetRequestBody` returns an empty body and no error and leaves the request (body
stream and context) as it was, for every reader, with zero fuel (no `Read` is made),
whatever the declared length and whether or not a body is cached. -/
theorem GetRequestBody_form_is_noop {σ : Type} (extra : Nat → Nat) (rc : ReadCloser σ)
    (fuel : Nat) (req : Request σ)
    (h : req.ContentType = "application/x-www-form-urlencoded" ∨
      hasPrefix req.ContentType "multipart/form-data" = true) :
    GetRequestBody extra rc fuel req = some (Except.ok [], req) ∧
      GetRequestBody extra rc 0 req = some (Except.ok [], req) := by
  constructor <;> simp [GetRequestBody, h]

theorem GetRequestBody_form_is_noop_witness :
    GetRequestBody (fun _ => 0) bytesReader 9
        { ContentType := "multipart/form-data; boundary=x",
          ContentLength := (MaxRequestBodySize : Int) + 1, ctxBody := some [4, 5],
          Body := BodyReader.stream [1, 2, 3] } =
      some (Except.ok [],
        { ContentType := "multipart/form-data; boundary=x",
          ContentLength := (MaxRequestBodySize : Int) + 1, ctxBody := some [4, 5],
          Body := BodyReader.stream [1, 2, 3] }) :=
  (GetRequestBody_form_is_noop (fun _ => 0) bytesReader 9
    { ContentType := "multipart/form-data; boundary=x",
      ContentLength := (MaxRequestBodySize : Int) + 1, ctxBody := some [4, 5],
      Body := BodyReader.stream [1, 2, 3] }
    (Or.inr (by decide))).1

/-! ## `patchStreamOptions` and `ConvertTextRequest` (C6 to C9, C16, C19, C20) -/

theorem mapGet_mapSet_eq (m : ReqMap) (k : String) (v : JSON) :
    mapGet (mapSet m k v) k = some v := by
  induction m with
  | nil => simp [mapSet, mapGet]
  | cons e rest ih =>
    obtain ⟨k', v'⟩ := e
    by_cases h : k' = k
    · simp [mapSet, mapGet, h]
    · simp [mapSet, mapGet, h, ih]

theorem mapGet_mapSet_ne (m : ReqMap) (k k' : String) (v : JSON) (hk : k' ≠ k) :
    mapGet (mapSet m k v) k' = mapGet m k' := by
  induction m with
  | nil => simp [mapSet, mapGet, Ne.symm hk]
  | cons e rest ih =>
    obtain ⟨k₁, v₁⟩ := e
    by_cases h : k₁ = k
    · subst h
      simp [mapSet, mapGet, Ne.symm hk]
    · by_cases h' : k₁ = k'
      · subst h'
        simp [mapSet, mapGet, h]
      · simp [mapSet, mapGet, h, h', ih]

theorem mapSet_mapSet (m : ReqMap) (k : String) (v w : JSON) :
    mapSet (mapSet m k v) k w = mapSet m k w := by
  induction m with
  | nil => simp [mapSet]
  | cons e rest ih =>
    obtain ⟨k', v'⟩ := e
    by_cases h : k' = k
    · simp [mapSet, h]
    · simp [mapSet, h, ih]

/-- C6: for a `Meta` with `Mode = ChatCompletions`, whenever `ConvertRequest`
succeeds on a request, the body of the request decoded to a map `inbound`, the
method of the result is `POST`, and the outbound body is the serialization of a map
whose `"model"` entry is the string `Meta.ActualModel`; so a caller-supplied
`"model"` value other than `ActualModel` is not the outbound one. -/
theorem ConvertRequest_chat_writes_actual_model {σ : Type} (extra : Nat → Nat)
    (rc : ReadCloser σ) (sonic : Sonic) (cv : Converters σ) (fuel : Nat) (mt : Meta)
    (req : Request σ) (res : ConvertRequestResult) (req' : Option (Request σ))
    (hmode : mt.Mode = Mode.ChatCompletions)
    (hcall : ConvertRequest extra rc sonic cv fuel mt (some req) = some (Except.ok res, req')) :
    res.Method = "POST" ∧
      ∃ inbound outbound : ReqMap, ∃ r : Request σ,
        UnmarshalBodyReusable extra rc sonic fuel req = some (Except.ok inbound, r) ∧
        req' = some r ∧
        patchStreamOptions inbound = ((patchStreamOptions inbound).1, none) ∧
        outbound = mapSet (patchStreamOptions inbound).1 "model" (JSON.string mt.ActualModel) ∧
        sonic.Marshal outbound = Except.ok res.Body ∧
        mapGet outbound "model" = some (JSON.string mt.ActualModel) ∧
        ∀ supplied, mapGet inbound "model" = some supplied →
          supplied ≠ JSON.string mt.ActualModel → mapGet outbound "model" ≠ some supplied := by
  simp only [ConvertRequest, hmode, Option.map_eq_some'] at hcall
  obtain ⟨⟨out, r⟩, hct, hout⟩ := hcall
  simp only [Prod.mk.injEq] at hout
  obtain ⟨rfl, rfl⟩ := hout
  unfold ConvertTextRequest at hct
  split at hct
  · simp at hct
  · simp at hct
  · rename_i inbound r0 hu
    simp only [Bool.not_false, if_true] at hct
    split at hct
    · simp at hct
    · rename_i patched hp
      split at hct
      · simp at hct
      · rename_i jsonData hm
        simp only [Option.some.injEq, Prod.mk.injEq, Except.ok.injEq] at hct
        obtain ⟨rfl, rfl⟩ := hct
        have hp1 : (patchStreamOptions inbound).1 = patched := by rw [hp]
        refine ⟨rfl, inbound, _, r0, hu, rfl, ?_, rfl, ?_, mapGet_mapSet_eq _ _ _, ?_⟩
        · rw [hp]
        · rw [hp1]; exact hm
        · intro supplied _ hne h
          rw [mapGet_mapSet_eq] at h
          exact hne (Option.some.inj h).symm

theorem ConvertRequest_chat_writes_actual_model_witness :
    ConvertRequest (fun _ => 0) bytesReader sampleSonic sampleConverters 4 sampleMeta
        (some sampleRequest) =
      some (Except.ok { Method := "POST", Header := none, Body := [0, 0, 0] },
        some { ContentType := "application/json", ContentLength := 3, ctxBody := some [1, 2, 3],
               Body := BodyReader.buffer [1, 2, 3] }) ∧
      ∃ outbound : ReqMap,
        sampleSonic.Marshal outbound = Except.ok [0, 0, 0] ∧
        mapGet outbound "model" = some (JSON.string "gpt-4o") := by
  have hcall : ConvertRequest (fun _ => 0) bytesReader sampleSonic sampleConverters 4 sampleMeta
        (some sampleRequest) =
      some (Except.ok { Method := "POST", Header := none, Body := [0, 0, 0] },
        some { ContentType := "application/json", ContentLength := 3, ctxBody := some [1, 2, 3],
               Body := BodyReader.buffer [1, 2, 3] }) := by rfl
  obtain ⟨_, _, outbound, _, _, _, _, _, hm, hg, _⟩ :=
    ConvertRequest_chat_writes_actual_model (fun _ => 0) bytesReader sampleSonic
      sampleConverters 4 sampleMeta sampleRequest _ _ rfl hcall
  exact ⟨hcall, outbound, hm, hg⟩

/-- C7: on a map with `"stream": true`, `patchStreamOptions` succeeds when
`"stream_options"` is absent and then sets it to `{"include_usage": true}`; it
succeeds when `"stream_options"` is a mapping `o` and then sets it to `o` with
`"include_usage"` set to `true`, every other key of `o` keeping its value; in both
cases every top-level key other than `"stream_options"` keeps its value. -/
theorem patchStreamOptions_stream_true (m : ReqMap)
    (hs : mapGet m "stream" = some (JSON.bool true)) :
    (mapGet m "stream_options" = none →
      (patchStreamOptions m).2 = none ∧
      mapGet (patchStreamOptions m).1 "stream_options" =
        some (JSON.object [("include_usage", JSON.bool true)]) ∧
      ∀ k, k ≠ "stream_options" → mapGet (patchStreamOptions m).1 k = mapGet m k) ∧
    (∀ o : ReqMap, mapGet m "stream_options" = some (JSON.object o) →
      (patchStreamOptions m).2 = none ∧
      mapGet (patchStreamOptions m).1 "stream_options" =
        some (JSON.object (mapSet o "include_usage" (JSON.bool true))) ∧
      mapGet (mapSet o "include_usage" (JSON.bool true)) "include_usage" =
        some (JSON.bool true) ∧
      (∀ k, k ≠ "include_usage" →
        mapGet (mapSet o "include_usage" (JSON.bool true)) k = mapGet o k) ∧
      ∀ k, k ≠ "stream_options" → mapGet (patchStreamOptions m).1 k = mapGet m k) := by
  constructor
  · intro ho
    simp only [patchStreamOptions, hs, ho, Bool.not_true, Bool.false_eq_true, if_false,
      true_and]
    exact ⟨mapGet_mapSet_eq _ _ _, fun k hk => mapGet_mapSet_ne _ _ _ _ hk⟩
  · intro o ho
    simp only [patchStreamOptions, hs, ho, Bool.not_true, Bool.false_eq_true, if_false,
      true_and]
    exact ⟨mapGet_mapSet_eq _ _ _, mapGet_mapSet_eq _ _ _,
      fun k hk => mapGet_mapSet_ne _ _ _ _ hk, fun k hk => mapGet_mapSet_ne _ _ _ _ hk⟩

theorem patchStreamOptions_stream_true_witness :
    patchStreamOptions [("stream", JSON.bool true)] =
        ([("stream", JSON.bool true),
          ("stream_options", JSON.object [("include_usage", JSON.bool true)])], none) ∧
      patchStreamOptions
          [("stream", JSON.bool true), ("stream_options", JSON.object [("x", JSON.number 1)])] =
        ([("stream", JSON.bool true),
          ("stream_options",
            JSON.object [("x", JSON.number 1), ("include_usage", JSON.bool true)])], none) ∧
      mapGet (patchStreamOptions
          [("stream", JSON.bool true), ("stream_options", JSON.object [("x", JSON.number 1)])]).1
        "stream_options" =
        some (JSON.object (mapSet [("x", JSON.number 1)] "include_usage" (JSON.bool true))) :=
  ⟨by rfl, by rfl,
    ((patchStreamOptions_stream_true
      [("stream", JSON.bool true), ("stream_options", JSON.object [("x", JSON.number 1)])]
      (by rfl)).2 [("x", JSON.number 1)] (by rfl)).2.1⟩

/-- C8: on a map in which `"stream"` is `false` or absent, `patchStreamOptions`
returns no error and the map is unchanged. -/
theorem patchStreamOptions_not_streaming (m : ReqMap)
    (hs : mapGet m "stream" = none ∨ mapGet m "stream" = some (JSON.bool false)) :
    patchStreamOptions m = (m, none) := by
  rcases hs with hs | hs <;> simp [patchStreamOptions, hs]

theorem patchStreamOptions_not_streaming_witness :
    patchStreamOptions [("stream", JSON.bool false), ("stream_options", JSON.string "bad")] =
        ([("stream", JSON.bool false), ("stream_options", JSON.string "bad")], none) ∧
      patchStreamOptions [("stream_options", JSON.number 3)] =
        ([("stream_options", JSON.number 3)], none) :=
  ⟨patchStreamOptions_not_streaming _ (Or.inr (by rfl)),
    patchStreamOptions_not_streaming _ (Or.inl (by rfl))⟩

/-- C9: on a map with `"stream": true` whose `"stream_options"` is present, not
null and not a mapping, `patchStreamOptions` returns the error
"stream_options is not a map" and leaves the map unchanged, and
`ConvertTextRequest` with patching enabled, on a request whose body decodes to
that map, returns that error and no `ConvertRequestResult`. -/
theorem patchStreamOptions_malformed_options (m : ReqMap) (v : JSON)
    (hs : mapGet m "stream" = some (JSON.bool true))
    (hv : mapGet m "stream_options" = some v)
    (hnull : v ≠ JSON.null) (hobj : ∀ o, v ≠ JSON.object o) :
    patchStreamOptions m = (m, some "stream_options is not a map") ∧
      ∀ (σ : Type) (extra : Nat → Nat) (rc : ReadCloser σ) (sonic : Sonic) (fuel : Nat)
        (mt : Meta) (req req' : Request σ),
        UnmarshalBodyReusable extra rc sonic fuel req = some (Except.ok m, req') →
        ConvertTextRequest extra rc sonic fuel mt req false =
          some (Except.error (ConvertError.message "stream_options is not a map"), req') := by
  have hp : patchStreamOptions m = (m, some "stream_options is not a map") := by
    simp only [patchStreamOptions, hs, hv, Bool.not_true, Bool.false_eq_true, if_false]
  refine ⟨hp, ?_⟩
  intro σ extra rc sonic fuel mt req req' hu
  simp [ConvertTextRequest, hu, hp]

theorem patchStreamOptions_malformed_options_witness :
    patchStreamOptions [("stream", JSON.bool true), ("stream_options", JSON.string "bad")] =
        ([("stream", JSON.bool true), ("stream_options", JSON.string "bad")],
          some "stream_options is not a map") ∧
      ConvertTextRequest (fun _ => 0) bytesReader
          { Unmarshal := fun _ =>
              Except.ok [("stream", JSON.bool true), ("stream_options", JSON.string "bad")],
            Marshal := fun _ => Except.ok [] }
          4 { Mode := Mode.ChatCompletions, Channel := { BaseURL := "", Key := "" },
              ActualModel := "gpt-4o", OriginModel := "gpt-4" }
          { ContentType := "application/json", ContentLength := 3, ctxBody := none,
            Body := BodyReader.stream [1, 2, 3] } false =
        some (Except.error (ConvertError.message "stream_options is not a map"),
          { ContentType := "application/json", ContentLength := 3, ctxBody := some [1, 2, 3],
            Body := BodyReader.buffer [1, 2, 3] }) :=
  have h := patchStreamOptions_malformed_options
    [("stream", JSON.bool true), ("stream_options", JSON.string "bad")] (JSON.string "bad")
    (by rfl) (by rfl) (fun h => by cases h) (fun o h => by cases h)
  ⟨h.1, h.2 (List Byte) (fun _ => 0) bytesReader _ 4 _ _ _ (by rfl)⟩

/-- C19: on a map in which `"stream"` is present with a value that is not a
boolean, `patchStreamOptions` returns the error "stream is not a boolean" and the
map is unchanged, whatever `"stream_options"` holds; and a `ChatCompletions`
`ConvertRequest` on a request whose body decodes to that map returns this error. -/
theorem patchStreamOptions_stream_not_bool (m : ReqMap) (v : JSON)
    (hs : mapGet m "stream" = some v) (hv : ∀ b, v ≠ JSON.bool b) :
    patchStreamOptions m = (m, some "stream is not a boolean") ∧
      ∀ (σ : Type) (extra : Nat → Nat) (rc : ReadCloser σ) (sonic : Sonic) (cv : Converters σ)
        (fuel : Nat) (mt : Meta) (req req' : Request σ),
        mt.Mode = Mode.ChatCompletions →
        UnmarshalBodyReusable extra rc sonic fuel req = some (Except.ok m, req') →
        ConvertRequest extra rc sonic cv fuel mt (some req) =
          some (Except.error (ConvertError.message "stream is not a boolean"), some req') := by
  have hp : patchStreamOptions m = (m, some "stream is not a boolean") := by
    simp only [patchStreamOptions, hs]
  refine ⟨hp, ?_⟩
  intro σ extra rc sonic cv fuel mt req req' hmode hu
  simp [ConvertRequest, hmode, ConvertTextRequest, hu, hp]

theorem patchStreamOptions_stream_not_bool_witness :
    patchStreamOptions [("stream", JSON.null)] =
        ([("stream", JSON.null)], some "stream is not a boolean") ∧
      patchStreamOptions
          [("stream", JSON.string "yes"), ("stream_options", JSON.object [])] =
        ([("stream", JSON.string "yes"), ("stream_options", JSON.object [])],
          some "stream is not a boolean") :=
  ⟨(patchStreamOptions_stream_not_bool [("stream", JSON.null)] JSON.null (by rfl)
      (fun b h => by cases h)).1,
    (patchStreamOptions_stream_not_bool
      [("stream", JSON.string "yes"), ("stream_options", JSON.object [])] (JSON.string "yes")
      (by rfl) (fun b h => by cases h)).1⟩

theorem patchStreamOptions_error_keeps_map (m m' : ReqMap) (e : String)
    (h : patchStreamOptions m = (m', some e)) : m' = m := by
  unfold patchStreamOptions at h
  split at h
  · simp at h
  · split at h
    · simp at h
    · split at h <;> simp at h
      exact h.1.symm
  · simp at h
    exact h.1.symm

theorem patchStreamOptions_again_after_set (m : ReqMap) (o : ReqMap)
    (hs : mapGet m "stream" = some (JSON.bool true))
    (ho : mapSet o "include_usage" (JSON.bool true) = o) :
    patchStreamOptions (mapSet m "stream_options" (JSON.object o)) =
      (mapSet m "stream_options" (JSON.object o), none) := by
  have h1 : mapGet (mapSet m "stream_options" (JSON.object o)) "stream" =
      some (JSON.bool true) := by
    rw [mapGet_mapSet_ne _ _ _ _ (by decide), hs]
  have h2 : mapGet (mapSet m "stream_options" (JSON.object o)) "stream_options" =
      some (JSON.object o) := mapGet_mapSet_eq _ _ _
  simp only [patchStreamOptions, h1, h2, Bool.not_true, Bool.false_eq_true, if_false, ho,
    mapSet_mapSet]

theorem patchStreamOptions_ok_again (m m' : ReqMap) (h : patchStreamOptions m = (m', none)) :
    patchStreamOptions m' = (m', none) := by
  have h0 := h
  unfold patchStreamOptions at h
  split at h
  · simp only [Prod.mk.injEq, and_true] at h
    subst h
    exact h0
  · rename_i streamBool hs
    split at h
    · simp only [Prod.mk.injEq, and_true] at h
      subst h
      exact h0
    · rename_i hb
      have hb' : streamBool = true := by simpa using hb
      subst hb'
      split at h
      · simp only [Prod.mk.injEq, and_true] at h
        subst h
        exact patchStreamOptions_again_after_set m _ hs (mapSet_mapSet _ _ _ _)
      · simp only [Prod.mk.injEq, and_true] at h
        subst h
        exact patchStreamOptions_again_after_set m _ hs rfl
      · simp only [Prod.mk.injEq, and_true] at h
        subst h
        exact patchStreamOptions_again_after_set m _ hs rfl
      · simp at h
  · simp at h

/-- C20: `patchStreamOptions` is idempotent. When it succeeds on `m` with result
`m'`, it succeeds on `m'` and leaves `m'` unchanged; when it fails on `m`, the map
is unchanged and it fails on it again with the same error. -/
theorem patchStreamOptions_idempotent (m : ReqMap) :
    (∀ m', patchStreamOptions m = (m', none) → patchStreamOptions m' = (m', none)) ∧
      (∀ m' e, patchStreamOptions m = (m', some e) →
        m' = m ∧ patchStreamOptions m' = (m', some e)) := by
  constructor
  · intro m' h
    exact patchStreamOptions_ok_again m m' h
  · intro m' e h
    have hm := patchStreamOptions_error_keeps_map m m' e h
    subst hm
    exact ⟨rfl, h⟩

theorem patchStreamOptions_idempotent_witness :
    patchStreamOptions
        [("stream", JSON.bool true), ("stream_options",
          JSON.object [("x", JSON.number 1), ("include_usage", JSON.bool true)])] =
      ([("stream", JSON.bool true), ("stream_options",
          JSON.object [("x", JSON.number 1), ("include_usage", JSON.bool true)])], none) ∧
    patchStreamOptions [("stream", JSON.number 1)] =
      ([("stream", JSON.number 1)], some "stream is not a boolean") :=
  ⟨(patchStreamOptions_idempotent
      [("stream", JSON.bool true), ("stream_options", JSON.object [("x", JSON.number 1)])]).1
      _ (by rfl),
    ((patchStreamOptions_idempotent [("stream", JSON.number 1)]).2
      [("stream", JSON.number 1)] "stream is not a boolean" (by rfl)).2⟩

/-! ## The Azure key parser (C10) -/

theorem splitChars_ne_nil (sep : Char) (l : List Char) : splitChars sep l ≠ [] := by
  cases l with
  | nil => simp [splitChars]
  | cons c cs =>
    unfold splitChars
    by_cases h : c = sep
    · simp [h]
    · simp only [h, if_false]
      split <;> simp

theorem splitChars_length (sep : Char) (l : List Char) :
    (splitChars sep l).length = l.count sep + 1 := by
  induction l with
  | nil => simp [splitChars]
  | cons c cs ih =>
    unfold splitChars
    by_cases h : c = sep
    · subst h
      simp [ih]
    · simp only [h, if_false]
      have hc : (c :: cs).count sep = cs.count sep := by
        rw [List.count_cons]
        simp [h]
      rw [hc, ← ih]
      split
      · rename_i heq
        exact absurd heq (splitChars_ne_nil sep cs)
      · rename_i piece pieces heq
        simp [heq]

theorem splitChars_no_sep (sep : Char) (l : List Char) (h : sep ∉ l) :
    splitChars sep l = [l] := by
  induction l with
  | nil => simp [splitChars]
  | cons c cs ih =>
    have hc : ¬ c = sep := fun e => h (by simp [e])
    have hcs : sep ∉ cs := fun e => h (by simp [e])
    unfold splitChars
    simp [hc, ih hcs]

theorem splitChars_append (sep : Char) (a b : List Char) (h : sep ∉ a) :
    splitChars sep (a ++ sep :: b) = a :: splitChars sep b := by
  induction a with
  | nil => simp [splitChars]
  | cons c cs ih =>
    have hc : ¬ c = sep := fun e => h (by simp [e])
    have hcs : sep ∉ cs := fun e => h (by simp [e])
    have ih' := ih hcs
    simp only [List.cons_append, splitChars, hc, if_false]
    simp only [List.append_eq, ih']

theorem exists_split_of_count_one (sep : Char) (l : List Char) (h : l.count sep = 1) :
    ∃ a b, l = a ++ sep :: b ∧ sep ∉ a ∧ sep ∉ b := by
  induction l with
  | nil => simp at h
  | cons c cs ih =>
    by_cases hc : c = sep
    · subst hc
      refine ⟨[], cs, rfl, by simp, ?_⟩
      rw [List.count_cons_self] at h
      exact List.count_eq_zero.mp (by omega)
    · have h' : cs.count sep = 1 := by
        rw [List.count_cons] at h
        simpa [hc] using h
      obtain ⟨a, b, rfl, ha, hb⟩ := ih h'
      refine ⟨c :: a, b, rfl, ?_, hb⟩
      simp only [List.mem_cons, not_or]
      exact ⟨fun e => hc e.symm, ha⟩

theorem splitBar_length (k : String) : (splitBar k).length = k.data.count '|' + 1 := by
  simp [splitBar, splitChars_length]

theorem getTokenAndAPIVersion_bare (k : String) (h : '|' ∉ k.data) :
    getTokenAndAPIVersion k = Except.ok (k, defaultAPIVersion) := by
  have hl := splitBar_length k
  rw [List.count_eq_zero.mpr h] at hl
  simp [getTokenAndAPIVersion, hl]

theorem getTokenAndAPIVersion_pair (a b : String) (ha : '|' ∉ a.data) (hb : '|' ∉ b.data) :
    getTokenAndAPIVersion (a ++ "|" ++ b) = Except.ok (a, b) := by
  have hd : (a ++ "|" ++ b).data = a.data ++ '|' :: b.data := by
    simp [String.data_append]
  have hs : splitBar (a ++ "|" ++ b) = [a, b] := by
    simp only [splitBar, hd, splitChars_append '|' _ _ ha, splitChars_no_sep '|' _ hb,
      List.map_cons, List.map_nil]
  simp [getTokenAndAPIVersion, hs]

theorem getTokenAndAPIVersion_many (k : String) (h : 2 ≤ k.data.count '|') :
    getTokenAndAPIVersion k = Except.error "invalid key format" := by
  have hl := splitBar_length k
  have h1 : (splitBar k).length ≠ 1 := by omega
  have h2 : (splitBar k).length ≠ 2 := by omega
  simp [getTokenAndAPIVersion, h1, h2]

theorem exists_pair_of_count_one (k : String) (h : k.data.count '|' = 1) :
    ∃ a b : String, k = a ++ "|" ++ b ∧ '|' ∉ a.data ∧ '|' ∉ b.data := by
  obtain ⟨a, b, hk, ha, hb⟩ := exists_split_of_count_one '|' k.data h
  refine ⟨String.mk a, String.mk b, ?_, ha, hb⟩
  apply String.ext
  simp [String.data_append, hk]

/-- C10: `getTokenAndAPIVersion(k)` returns `(k, "2024-12-01-preview")` when `k` has
no `'|'`; returns the part before and the part after the `'|'` when `k` has exactly
one; returns the error "invalid key format" when `k` has two or more; and
`ValidateKey(k)` fails exactly when `getTokenAndAPIVersion(k)` fails, that is exactly
when `k` has two or more `'|'`. On `"abc"`, `"abc|v2"` and `"a|b|c"` the results are
`("abc", default)`, `("abc", "v2")` and the error. -/
theorem getTokenAndAPIVersion_by_bar_count (k : String) :
    ('|' ∉ k.data → getTokenAndAPIVersion k = Except.ok (k, defaultAPIVersion)) ∧
    (k.data.count '|' = 1 →
      ∃ a b : String, k = a ++ "|" ++ b ∧ '|' ∉ a.data ∧ '|' ∉ b.data ∧
        getTokenAndAPIVersion k = Except.ok (a, b)) ∧
    (∀ a b : String, k = a ++ "|" ++ b → '|' ∉ a.data → '|' ∉ b.data →
      getTokenAndAPIVersion k = Except.ok (a, b)) ∧
    (2 ≤ k.data.count '|' → getTokenAndAPIVersion k = Except.error "invalid key format") ∧
    (ValidateKey k ≠ none ↔ ∃ err, getTokenAndAPIVersion k = Except.error err) ∧
    (ValidateKey k ≠ none ↔ 2 ≤ k.data.count '|') ∧
    defaultAPIVersion = "2024-12-01-preview" ∧
    getTokenAndAPIVersion "abc" = Except.ok ("abc", "2024-12-01-preview") ∧
    getTokenAndAPIVersion "abc|v2" = Except.ok ("abc", "v2") ∧
    getTokenAndAPIVersion "a|b|c" = Except.error "invalid key format" := by
  have hpair : ∀ a b : String, k = a ++ "|" ++ b → '|' ∉ a.data → '|' ∉ b.data →
      getTokenAndAPIVersion k = Except.ok (a, b) := by
    intro a b hk ha hb
    rw [hk]
    exact getTokenAndAPIVersion_pair a b ha hb
  have hvalid : ValidateKey k ≠ none ↔ ∃ err, getTokenAndAPIVersion k = Except.error err := by
    unfold ValidateKey
    cases getTokenAndAPIVersion k with
    | error e => simp
    | ok r => simp
  refine ⟨getTokenAndAPIVersion_bare k, ?_, hpair, getTokenAndAPIVersion_many k, hvalid, ?_,
    rfl, by rfl, by rfl, by rfl⟩
  · intro h1
    obtain ⟨a, b, hk, ha, hb⟩ := exists_pair_of_count_one k h1
    exact ⟨a, b, hk, ha, hb, hpair a b hk ha hb⟩
  · rw [hvalid]
    constructor
    · rintro ⟨err, herr⟩
      by_contra hlt
      have hcases : k.data.count '|' = 0 ∨ k.data.count '|' = 1 := by omega
      rcases hcases with h0 | h1
      · rw [getTokenAndAPIVersion_bare k (List.count_eq_zero.mp h0)] at herr
        cases herr
      · obtain ⟨a, b, hk, ha, hb⟩ := exists_pair_of_count_one k h1
        rw [hpair a b hk ha hb] at herr
        cases herr
    · intro h2
      exact ⟨_, getTokenAndAPIVersion_many k h2⟩

theorem getTokenAndAPIVersion_by_bar_count_witness :
    getTokenAndAPIVersion "key-1|2024-06-01" = Except.ok ("key-1", "2024-06-01") ∧
      getTokenAndAPIVersion "key-1" = Except.ok ("key-1", defaultAPIVersion) ∧
      getTokenAndAPIVersion "k|v|w" = Except.error "invalid key format" ∧
      ValidateKey "k|v|w" ≠ none :=
  ⟨(getTokenAndAPIVersion_by_bar_count "key-1|2024-06-01").2.2.1 "key-1" "2024-06-01"
      (by decide) (by decide) (by decide),
    (getTokenAndAPIVersion_by_bar_count "key-1").1 (by decide),
    (getTokenAndAPIVersion_by_bar_count "k|v|w").2.2.2.1 (by decide),
    (getTokenAndAPIVersion_by_bar_count "k|v|w").2.2.2.2.2.1.mpr (by decide)⟩

/-! ## Mode dispatch and request headers of the adaptors (C11, C12, C17, C18) -/

/-- C11: for a Mode outside the ten baseline modes the openai `DoResponse`, and for
a Mode other than `ParsePdf` the doc2x `DoResponse`, returns a nil usage and the
Error Envelope with HTTP status 400, code `"unsupported_mode"` and the message
"unsupported mode: " followed by the Mode, whatever the handlers are, and the
response is as it was. -/
theorem DoResponse_unsupported_mode {υ ρ : Type} (modeString : Mode → String)
    (h : Handlers υ ρ) (hp : Meta → ρ → Option υ × Option ErrorEnvelope × ρ) (m : Meta)
    (resp : ρ) :
    (m.Mode ∉ [Mode.ChatCompletions, Mode.Completions, Mode.Embeddings, Mode.Moderations,
        Mode.ImagesGenerations, Mode.ImagesEdits, Mode.AudioSpeech, Mode.AudioTranscription,
        Mode.AudioTranslation, Mode.Rerank] →
      DoResponse modeString h m resp =
        (none,
          some { Message := "unsupported mode: " ++ modeString m.Mode,
                 Code := "unsupported_mode", HTTPStatus := 400 },
          resp)) ∧
    (m.Mode ≠ Mode.ParsePdf →
      Doc2x.DoResponse modeString hp m resp =
        (none,
          some { Message := "unsupported mode: " ++ modeString m.Mode,
                 Code := "unsupported_mode", HTTPStatus := 400 },
          resp)) := by
  obtain ⟨mode, ch, am, om⟩ := m
  constructor
  · intro hm
    cases mode <;> first
      | rfl
      | exact absurd (by simp) hm
  · intro hm
    cases mode <;> first
      | rfl
      | exact absurd rfl hm

theorem DoResponse_unsupported_mode_witness :
    DoResponse sampleModeString sampleHandlers (Meta.mk Mode.ParsePdf sampleMeta.Channel "m" "m") 7 =
        (none,
          some { Message := "unsupported mode: " ++ sampleModeString Mode.ParsePdf,
                 Code := "unsupported_mode", HTTPStatus := 400 },
          7) ∧
      Doc2x.DoResponse sampleModeString sampleHandlers.Handler sampleMeta 7 =
        (none,
          some { Message := "unsupported mode: " ++ sampleModeString Mode.ChatCompletions,
                 Code := "unsupported_mode", HTTPStatus := 400 },
          7) :=
  ⟨(DoResponse_unsupported_mode sampleModeString sampleHandlers sampleHandlers.Handler
      (Meta.mk Mode.ParsePdf sampleMeta.Channel "m" "m") 7).1 (by decide),
    (DoResponse_unsupported_mode sampleModeString sampleHandlers sampleHandlers.Handler
      sampleMeta 7).2 (by decide)⟩

/-- C12: for every `Channel.BaseURL` `u` the openai adaptor's `GetRequestURL` returns
`u` followed by the suffix of the table for each of the ten modes, and returns the
unsupported-mode error with an empty URL for every other Mode (`ParsePdf` and any
further value of the enumeration); `"https://api.openai.com/v1"` with
`ChatCompletions` gives `"https://api.openai.com/v1/chat/completions"`. -/
theorem GetRequestURL_suffix_table (c : Channel) (am om : String) :
    GetRequestURL (Meta.mk Mode.ChatCompletions c am om) =
      (c.BaseURL ++ "/chat/completions", none) ∧
    GetRequestURL (Meta.mk Mode.Completions c am om) =
      (c.BaseURL ++ "/completions", none) ∧
    GetRequestURL (Meta.mk Mode.Embeddings c am om) =
      (c.BaseURL ++ "/embeddings", none) ∧
    GetRequestURL (Meta.mk Mode.Moderations c am om) =
      (c.BaseURL ++ "/moderations", none) ∧
    GetRequestURL (Meta.mk Mode.ImagesGenerations c am om) =
      (c.BaseURL ++ "/images/generations", none) ∧
    GetRequestURL (Meta.mk Mode.ImagesEdits c am om) =
      (c.BaseURL ++ "/images/edits", none) ∧
    GetRequestURL (Meta.mk Mode.AudioSpeech c am om) =
      (c.BaseURL ++ "/audio/speech", none) ∧
    GetRequestURL (Meta.mk Mode.AudioTranscription c am om) =
      (c.BaseURL ++ "/audio/transcriptions", none) ∧
    GetRequestURL (Meta.mk Mode.AudioTranslation c am om) =
      (c.BaseURL ++ "/audio/translations", none) ∧
    GetRequestURL (Meta.mk Mode.Rerank c am om) =
      (c.BaseURL ++ "/rerank", none) ∧
    GetRequestURL (Meta.mk Mode.ParsePdf c am om) =
      ("", some (ConvertError.unsupportedMode Mode.ParsePdf)) ∧
    (∀ code : Nat,
      GetRequestURL (Meta.mk (Mode.other code) c am om) =
        ("", some (ConvertError.unsupportedMode (Mode.other code)))) ∧
    GetRequestURL
        (Meta.mk Mode.ChatCompletions (Channel.mk "https://api.openai.com/v1" c.Key) am om) =
      ("https://api.openai.com/v1/chat/completions", none) := by
  refine ⟨rfl, rfl, rfl, rfl, rfl, rfl, rfl, rfl, rfl, rfl, rfl, fun _ => rfl, ?_⟩
  simp only [GetRequestURL]
  rfl

theorem headerValues_headerSet_eq (h : Header) (key value : String) :
    headerValues (headerSet h key value) key = some [value] := by
  induction h with
  | nil => simp [headerSet, headerValues]
  | cons e rest ih =>
    obtain ⟨k, vs⟩ := e
    by_cases hk : k = key
    · simp [headerSet, headerValues, hk]
    · simp [headerSet, headerValues, hk, ih]

theorem headerValues_headerSet_ne (h : Header) (key k' value : String) (hne : k' ≠ key) :
    headerValues (headerSet h key value) k' = headerValues h k' := by
  induction h with
  | nil => simp [headerSet, headerValues, Ne.symm hne]
  | cons e rest ih =>
    obtain ⟨k, vs⟩ := e
    by_cases hk : k = key
    · subst hk
      simp [headerSet, headerValues, Ne.symm hne]
    · by_cases hk' : k = k'
      · subst hk'
        simp [headerSet, headerValues, hk]
      · simp [headerSet, headerValues, hk, hk', ih]

/-- C17: for the openai and the doc2x adaptor, every `Meta` and every outbound
request, `SetupRequestHeader` returns no error, leaves `Authorization` holding the
single value `"Bearer "` followed by `Channel.Key`, and leaves the method, the URL,
the body and the values of every other header key as they were. -/
theorem SetupRequestHeader_sets_authorization {β : Type} (m : Meta) (req : OutboundRequest β) :
    ((SetupRequestHeader m req).2 = none ∧
      headerValues (SetupRequestHeader m req).1.Header "Authorization" =
        some ["Bearer " ++ m.Channel.Key] ∧
      headerGet (SetupRequestHeader m req).1.Header "Authorization" =
        "Bearer " ++ m.Channel.Key ∧
      (SetupRequestHeader m req).1.Method = req.Method ∧
      (SetupRequestHeader m req).1.URL = req.URL ∧
      (SetupRequestHeader m req).1.Body = req.Body ∧
      ∀ k, k ≠ "Authorization" →
        headerValues (SetupRequestHeader m req).1.Header k = headerValues req.Header k) ∧
    ((Doc2x.SetupRequestHeader m req).2 = none ∧
      headerValues (Doc2x.SetupRequestHeader m req).1.Header "Authorization" =
        some ["Bearer " ++ m.Channel.Key] ∧
      headerGet (Doc2x.SetupRequestHeader m req).1.Header "Authorization" =
        "Bearer " ++ m.Channel.Key ∧
      (Doc2x.SetupRequestHeader m req).1.Method = req.Method ∧
      (Doc2x.SetupRequestHeader m req).1.URL = req.URL ∧
      (Doc2x.SetupRequestHeader m req).1.Body = req.Body ∧
      ∀ k, k ≠ "Authorization" →
        headerValues (Doc2x.SetupRequestHeader m req).1.Header k = headerValues req.Header k) := by
  have hv := headerValues_headerSet_eq req.Header "Authorization" ("Bearer " ++ m.Channel.Key)
  have hn := fun k hk =>
    headerValues_headerSet_ne req.Header "Authorization" k ("Bearer " ++ m.Channel.Key) hk
  have hg : headerGet (headerSet req.Header "Authorization" ("Bearer " ++ m.Channel.Key))
      "Authorization" = "Bearer " ++ m.Channel.Key := by
    simp [headerGet, hv]
  exact ⟨⟨rfl, hv, hg, rfl, rfl, rfl, hn⟩, ⟨rfl, hv, hg, rfl, rfl, rfl, hn⟩⟩

theorem GetRequestURL_unsupported_iff (m : Meta) :
    (GetRequestURL m).2 = some (ConvertError.unsupportedMode m.Mode) ↔
      m.Mode ∉ [Mode.ChatCompletions, Mode.Completions, Mode.Embeddings, Mode.Moderations,
        Mode.ImagesGenerations, Mode.ImagesEdits, Mode.AudioSpeech, Mode.AudioTranscription,
        Mode.AudioTranslation, Mode.Rerank] := by
  obtain ⟨mode, ch, am, om⟩ := m
  cases mode <;> simp [GetRequestURL]

theorem UnmarshalBodyReusable_error {σ : Type} (extra : Nat → Nat) (rc : ReadCloser σ)
    (sonic : Sonic) (fuel : Nat) (req r : Request σ) (err : ConvertError)
    (h : UnmarshalBodyReusable extra rc sonic fuel req = some (Except.error err, r)) :
    (∃ e, err = ConvertError.body e) ∨ ∃ msg, err = ConvertError.sonic msg := by
  unfold UnmarshalBodyReusable at h
  split at h
  · simp at h
  · simp only [Option.some.injEq, Prod.mk.injEq, Except.error.injEq] at h
    exact Or.inl ⟨_, h.1.symm⟩
  · split at h
    · simp only [Option.some.injEq, Prod.mk.injEq, Except.error.injEq] at h
      exact Or.inr ⟨_, h.1.symm⟩
    · simp at h

theorem ConvertTextRequest_not_unsupported {σ : Type} (extra : Nat → Nat) (rc : ReadCloser σ)
    (sonic : Sonic) (fuel : Nat) (m : Meta) (req r : Request σ) (doNotPatch : Bool)
    (md : Mode) :
    ConvertTextRequest extra rc sonic fuel m req doNotPatch ≠
      some (Except.error (ConvertError.unsupportedMode md), r) := by
  intro h
  unfold ConvertTextRequest at h
  split at h
  · simp at h
  · rename_i err r0 hu
    simp only [Option.some.injEq, Prod.mk.injEq, Except.error.injEq] at h
    rcases UnmarshalBodyReusable_error extra rc sonic fuel req r0 err hu with ⟨e, he⟩ | ⟨msg, he⟩
    · rw [he] at h
      simp at h
    · rw [he] at h
      simp at h
  · cases doNotPatch with
    | true =>
      simp only [Bool.not_true, Bool.false_eq_true, if_false] at h
      split at h <;> simp at h
    | false =>
      simp only [Bool.not_false, if_true] at h
      split at h
      · simp at h
      · split at h <;> simp at h

theorem ConvertRequest_unsupported_iff {σ : Type} (m : Meta) (req : Request σ) :
    (∀ (extra : Nat → Nat) (rc : ReadCloser σ) (sonic : Sonic) (cv : Converters σ)
        (fuel : Nat),
        ConvertRequest extra rc sonic cv fuel m (some req) =
          some (Except.error (ConvertError.unsupportedMode m.Mode), some req)) ↔
      m.Mode ∉ [Mode.ChatCompletions, Mode.Completions, Mode.Embeddings, Mode.Moderations,
        Mode.ImagesGenerations, Mode.ImagesEdits, Mode.AudioSpeech, Mode.AudioTranscription,
        Mode.AudioTranslation, Mode.Rerank] := by
  obtain ⟨mode, ch, am, om⟩ := m
  constructor
  · intro h
    have h1 := h (fun _ => 0) (endedReader σ) rejectingSonic (idleConverters σ) 0
    cases mode <;> first
      | (simp; done)
      | (exfalso; simp [ConvertRequest, idleConverters] at h1; done)
      | (exfalso
         simp only [ConvertRequest, Option.map_eq_some'] at h1
         obtain ⟨⟨out, r⟩, hct, hout⟩ := h1
         simp only [Prod.mk.injEq, Option.some.injEq] at hout
         obtain ⟨rfl, rfl⟩ := hout
         exact ConvertTextRequest_not_unsupported _ _ _ _ _ _ _ _ _ hct)
  · intro h extra rc sonic cv fuel
    cases mode <;> first
      | rfl
      | (exfalso; simp at h)

theorem DoResponse_unsupported_iff {υ ρ : Type} (m : Meta) (resp : ρ) :
    (∀ (modeString : Mode → String) (h : Handlers υ ρ),
        DoResponse modeString h m resp =
          (none,
            some (WrapperOpenAIErrorWithMessage (unsupportedModeText modeString m.Mode)
              "unsupported_mode" StatusBadRequest),
            resp)) ↔
      m.Mode ∉ [Mode.ChatCompletions, Mode.Completions, Mode.Embeddings, Mode.Moderations,
        Mode.ImagesGenerations, Mode.ImagesEdits, Mode.AudioSpeech, Mode.AudioTranscription,
        Mode.AudioTranslation, Mode.Rerank] := by
  obtain ⟨mode, ch, am, om⟩ := m
  constructor
  · intro h
    have h1 := h sampleModeString (idleHandlers υ ρ)
    cases mode <;> first
      | (simp; done)
      | (exfalso; simp [DoResponse, idleHandlers] at h1)
  · intro h modeString hd
    cases mode <;> first
      | rfl
      | (exfalso; simp at h)

theorem doc2x_GetRequestURL_rejects_iff (m : Meta) :
    (Doc2x.GetRequestURL m).2 = some (ConvertError.unsupportedMode m.Mode) ↔
      m.Mode ≠ Mode.ParsePdf := by
  obtain ⟨mode, ch, am, om⟩ := m
  cases mode <;> simp [Doc2x.GetRequestURL]

theorem doc2x_ConvertRequest_rejects_iff {σ : Type} (m : Meta) (req : Request σ) :
    (∀ (cpp : Meta → Request σ → Option (Except ConvertError ConvertRequestResult × Request σ)),
        Doc2x.ConvertRequest cpp m req =
          some (Except.error (ConvertError.unsupportedMode m.Mode), req)) ↔
      m.Mode ≠ Mode.ParsePdf := by
  obtain ⟨mode, ch, am, om⟩ := m
  constructor
  · intro h
    have h1 := h (fun _ _ => none)
    cases mode <;> first
      | (simp; done)
      | (exfalso; simp [Doc2x.ConvertRequest] at h1)
  · intro h cpp
    cases mode <;> first
      | rfl
      | (exfalso; simp at h)

theorem doc2x_DoResponse_rejects_iff {υ ρ : Type} (m : Meta) (resp : ρ) :
    (∀ (modeString : Mode → String) (hp : Meta → ρ → Option υ × Option ErrorEnvelope × ρ),
        Doc2x.DoResponse modeString hp m resp =
          (none,
            some (WrapperOpenAIErrorWithMessage (unsupportedModeText modeString m.Mode)
              "unsupported_mode" StatusBadRequest),
            resp)) ↔
      m.Mode ≠ Mode.ParsePdf := by
  obtain ⟨mode, ch, am, om⟩ := m
  constructor
  · intro h
    have h1 := h sampleModeString (fun _ resp => (none, none, resp))
    cases mode <;> first
      | (simp; done)
      | (exfalso; simp [Doc2x.DoResponse] at h1)
  · intro h modeString hp
    cases mode <;> first
      | rfl
      | (exfalso; simp at h)

/-- C18: within the openai adaptor and within the doc2x adaptor the three stages
reject the same Modes. For every `Meta`, every non-nil request and every response:
`GetRequestURL` returns the unsupported-mode error exactly when `ConvertRequest`
returns the unsupported-mode error on the request whatever the converters of the
other files are, and exactly when `DoResponse` returns the `unsupported_mode`
envelope on the response whatever the handlers are; `GetRequestURL` returns either
a URL or that error. For openai the rejected Modes are those outside the ten of the
path table, for doc2x those other than `ParsePdf`. -/
theorem adaptor_stages_agree_on_modes {σ υ ρ : Type} (m : Meta) (req : Request σ)
    (resp : ρ) :
    (((GetRequestURL m).2 = some (ConvertError.unsupportedMode m.Mode) ↔
        ∀ (extra : Nat → Nat) (rc : ReadCloser σ) (sonic : Sonic) (cv : Converters σ)
          (fuel : Nat),
          ConvertRequest extra rc sonic cv fuel m (some req) =
            some (Except.error (ConvertError.unsupportedMode m.Mode), some req)) ∧
      ((GetRequestURL m).2 = some (ConvertError.unsupportedMode m.Mode) ↔
        ∀ (modeString : Mode → String) (h : Handlers υ ρ),
          DoResponse modeString h m resp =
            (none,
              some (WrapperOpenAIErrorWithMessage (unsupportedModeText modeString m.Mode)
                "unsupported_mode" StatusBadRequest),
              resp)) ∧
      ((GetRequestURL m).2 = some (ConvertError.unsupportedMode m.Mode) ↔
        m.Mode ∉ [Mode.ChatCompletions, Mode.Completions, Mode.Embeddings, Mode.Moderations,
          Mode.ImagesGenerations, Mode.ImagesEdits, Mode.AudioSpeech,
          Mode.AudioTranscription, Mode.AudioTranslation, Mode.Rerank]) ∧
      ((GetRequestURL m).2 = none ∨
        (GetRequestURL m).2 = some (ConvertError.unsupportedMode m.Mode))) ∧
    (((Doc2x.GetRequestURL m).2 = some (ConvertError.unsupportedMode m.Mode) ↔
        ∀ (cpp : Meta → Request σ →
            Option (Except ConvertError ConvertRequestResult × Request σ)),
          Doc2x.ConvertRequest cpp m req =
            some (Except.error (ConvertError.unsupportedMode m.Mode), req)) ∧
      ((Doc2x.GetRequestURL m).2 = some (ConvertError.unsupportedMode m.Mode) ↔
        ∀ (modeString : Mode → String)
          (hp : Meta → ρ → Option υ × Option ErrorEnvelope × ρ),
          Doc2x.DoResponse modeString hp m resp =
            (none,
              some (WrapperOpenAIErrorWithMessage (unsupportedModeText modeString m.Mode)
                "unsupported_mode" StatusBadRequest),
              resp)) ∧
      ((Doc2x.GetRequestURL m).2 = some (ConvertError.unsupportedMode m.Mode) ↔
        m.Mode ≠ Mode.ParsePdf) ∧
      ((Doc2x.GetRequestURL m).2 = none ∨
        (Doc2x.GetRequestURL m).2 = some (ConvertError.unsupportedMode m.Mode))) := by
  refine ⟨⟨?_, ?_, GetRequestURL_unsupported_iff m, ?_⟩,
    ⟨?_, ?_, doc2x_GetRequestURL_rejects_iff m, ?_⟩⟩
  · rw [GetRequestURL_unsupported_iff, ConvertRequest_unsupported_iff m req]
  · rw [GetRequestURL_unsupported_iff, DoResponse_unsupported_iff m resp]
  · obtain ⟨mode, ch, am, om⟩ := m
    cases mode <;> simp [GetRequestURL]
  · rw [doc2x_GetRequestURL_rejects_iff, doc2x_ConvertRequest_rejects_iff m req]
  · rw [doc2x_GetRequestURL_rejects_iff, doc2x_DoResponse_rejects_iff m resp]
  · obtain ⟨mode, ch, am, om⟩ := m
    cases mode <;> simp [Doc2x.GetRequestURL]

theorem adaptor_stages_agree_on_modes_witness :
    (GetRequestURL (Meta.mk Mode.ParsePdf sampleMeta.Channel "m" "m")).2 =
        some (ConvertError.unsupportedMode Mode.ParsePdf) ∧
      (Doc2x.GetRequestURL sampleMeta).2 = some (ConvertError.unsupportedMode sampleMeta.Mode) :=
  ⟨(adaptor_stages_agree_on_modes (υ := Nat) (Meta.mk Mode.ParsePdf sampleMeta.Channel "m" "m")
      sampleRequest (0 : Nat)).1.2.2.1.mpr (by decide),
    (adaptor_stages_agree_on_modes (υ := Nat) sampleMeta sampleRequest (0 : Nat)).2.2.2.1.mpr
      (by decide)⟩

end AIProxy
